import Mathlib

/-!
Verification development for the sortmedia/sortphotos repository.

The definitions below are a shallow embedding of the Python sources
`sortmedia.py` (primary) and `sortphotos.py` (legacy, Python 2).
Python `datetime` values are modelled by a `Datetime` structure of integer
fields; `timedelta` by its total number of seconds (`Int`); fallible code by
`Option`/`Except Unit` where `.error ()` stands for an uncaught Python
exception.  External collaborators (the timezone finder, pytz, `strftime`)
are modelled as parameters.  Machine-level details that cannot arise for
real metadata are not modelled: `datetime` arithmetic is total on an
unbounded seconds axis (Python raises `OverflowError` outside years
1..9999), and the `date.strftime` sanity guard of `parse_date` is modelled
as rejecting years before 1900, which is the documented behaviour of the
Python 2 implementation (`sortphotos.py` line 113-118) and the intent
recorded in the comment at `sortmedia.py` line 133.
-/

namespace SortMedia

/-! ## Python string helpers -/

/-- Python whitespace characters recognised by `str.split()` / `str.strip()`. -/
def isPyWs (c : Char) : Bool :=
  c == ' ' || c == '\t' || c == '\n' || c == '\r' || c == '\x0b' || c == '\x0c'

/-- Fuel-driven worker for `pySplitWs`. -/
def pySplitWsAux : Nat → List Char → List (List Char)
  | 0, _ => []
  | _ + 1, [] => []
  | fuel + 1, c :: cs =>
    if isPyWs c then pySplitWsAux fuel cs
    else (c :: cs.takeWhile (fun x => !isPyWs x)) ::
      pySplitWsAux fuel (cs.dropWhile (fun x => !isPyWs x))

/-- Python `str.split()` with no separator argument: splits on runs of
whitespace and never yields empty tokens.  `str.strip()` before such a
split is a no-op, so `text.strip().split()` is embedded as `pySplitWs`. -/
def pySplitWs (cs : List Char) : List (List Char) :=
  pySplitWsAux (cs.length + 1) cs

/-- Python `str.split(sep)` for a one-character separator: keeps empty
tokens, and the empty string splits to `[""]`. -/
def pySplitOn (sep : Char) : List Char → List (List Char)
  | [] => [[]]
  | c :: cs =>
    if c == sep then [] :: pySplitOn sep cs
    else
      match pySplitOn sep cs with
      | g :: gs => (c :: g) :: gs
      | [] => [[c]]

/-- The separator class of the regex `(\+|-|Z)` used at `sortmedia.py:101`. -/
def isSignSep (c : Char) : Bool :=
  c == '+' || c == '-' || c == 'Z'

/-- Python `re.split('(\\+|-|Z)', s)`: splits at every `+`, `-` or `Z` and
keeps each separator as its own one-character token. -/
def reSplitSigns : List Char → List (List Char)
  | [] => [[]]
  | c :: cs =>
    if isSignSep c then
      [] :: [c] :: reSplitSigns cs
    else
      match reSplitSigns cs with
      | g :: gs => (c :: g) :: gs
      | [] => [[c]]

/-- Digit run to its value; `none` when empty or a non-digit occurs. -/
def digitsToNat? (cs : List Char) : Option Nat :=
  if cs.isEmpty then none
  else if cs.all (fun c => 48 ≤ c.toNat && c.toNat ≤ 57) then
    some (cs.foldl (fun a c => a * 10 + (c.toNat - 48)) 0)
  else none

/-- Python `int(str)`: strips whitespace, accepts one optional sign, then
requires a non-empty digit run.  `none` models the `ValueError` raise. -/
def pyInt? (cs0 : List Char) : Option Int :=
  let cs := ((cs0.dropWhile isPyWs).reverse.dropWhile isPyWs).reverse
  match cs with
  | '+' :: rest => (digitsToNat? rest).map Int.ofNat
  | '-' :: rest => (digitsToNat? rest).map (fun n => -(Int.ofNat n))
  | rest => (digitsToNat? rest).map Int.ofNat

/-- Strict lexicographic (code-point) order on character lists, the order
Python uses to compare strings. -/
def lexLt : List Char → List Char → Bool
  | [], [] => false
  | [], _ :: _ => true
  | _ :: _, [] => false
  | a :: as, b :: bs =>
    if a.toNat < b.toNat then true
    else if b.toNat < a.toNat then false
    else lexLt as bs

/-- Python `a > b` on strings. -/
def pyStrGt (a b : List Char) : Bool := lexLt b a

/-- Decimal digit to its character, for digits below ten. -/
def digitChar (n : Nat) : Char := Char.ofNat (48 + n)

/-- Fuel-driven decimal rendering of a natural number (most significant
digit first); fuel `n + 1` always suffices. -/
def natStrAux : Nat → Nat → List Char
  | 0, _ => []
  | fuel + 1, n =>
    if n < 10 then [digitChar n]
    else natStrAux fuel (n / 10) ++ [digitChar (n % 10)]

/-- Python `str(n)` for a natural number. -/
def natStr (n : Nat) : String := ⟨natStrAux (n + 1) n⟩

/-- Python `'{:02d}'.format(n)` for a natural number. -/
def pad2 (n : Nat) : String :=
  if n < 10 then ⟨'0' :: (natStr n).data⟩ else natStr n

/-- `pre` begins the string `s`. -/
def strStartsWith (s pre : String) : Bool := pre.data.isPrefixOf s.data

/-- `sub` occurs somewhere in `s` (Python `sub in s`). -/
def strIn : List Char → List Char → Bool
  | sub, [] => sub.isEmpty
  | sub, c :: cs => sub.isPrefixOf (c :: cs) || strIn sub cs

/-- Python `sub in s` on strings. -/
def strContains (s sub : String) : Bool := strIn sub.data s.data

/-! ## Datetime model

Python `datetime.datetime` is modelled as a record of integer fields;
conversion to and from an absolute second count uses the standard civil
calendar algorithms, matching `datetime`'s proleptic Gregorian calendar. -/

structure Datetime where
  year : Int
  month : Int
  day : Int
  hour : Int
  minute : Int
  second : Int
deriving DecidableEq

/-- Gregorian leap year test. -/
def isLeap (y : Int) : Bool :=
  (y % 4 == 0 && y % 100 != 0) || y % 400 == 0

/-- Days in a month of the proleptic Gregorian calendar. -/
def daysInMonth (y m : Int) : Int :=
  if m == 2 then (if isLeap y then 29 else 28)
  else if m == 4 || m == 6 || m == 9 || m == 11 then 30
  else 31

/-- `datetime(year, month, day, hour, minute, second)`: `some` on the
argument ranges Python accepts (years 1..9999), `none` for the
`ValueError` raise. -/
def mkDatetime? (y mo d h mi s : Int) : Option Datetime :=
  if 1 ≤ y ∧ y ≤ 9999 ∧ 1 ≤ mo ∧ mo ≤ 12 ∧ 1 ≤ d ∧ d ≤ daysInMonth y mo
      ∧ 0 ≤ h ∧ h ≤ 23 ∧ 0 ≤ mi ∧ mi ≤ 59 ∧ 0 ≤ s ∧ s ≤ 59 then
    some ⟨y, mo, d, h, mi, s⟩
  else none

/-- Day number of a civil date (days since 1970-01-01, Hinnant's
`days_from_civil`). -/
def daysFromCivil (y m d : Int) : Int :=
  let y' := if m ≤ 2 then y - 1 else y
  let era := Int.fdiv y' 400
  let yoe := y' - era * 400
  let mp := if 2 < m then m - 3 else m + 9
  let doy := Int.fdiv (153 * mp + 2) 5 + d - 1
  let doe := yoe * 365 + Int.fdiv yoe 4 - Int.fdiv yoe 100 + doy
  era * 146097 + doe - 719468

/-- Civil date of a day number (Hinnant's `civil_from_days`). -/
def civilFromDays (z0 : Int) : Int × Int × Int :=
  let z := z0 + 719468
  let era := Int.fdiv z 146097
  let doe := z - era * 146097
  let yoe := Int.fdiv (doe - Int.fdiv doe 1460 + Int.fdiv doe 36524 - Int.fdiv doe 146096) 365
  let y := yoe + era * 400
  let doy := doe - (365 * yoe + Int.fdiv yoe 4 - Int.fdiv yoe 100)
  let mp := Int.fdiv (5 * doy + 2) 153
  let d := doy - Int.fdiv (153 * mp + 2) 5 + 1
  let m := if mp < 10 then mp + 3 else mp - 9
  (if m ≤ 2 then y + 1 else y, m, d)

/-- Seconds since 1970-01-01 00:00:00 of a `Datetime`. -/
def Datetime.toSecs (dt : Datetime) : Int :=
  daysFromCivil dt.year dt.month dt.day * 86400
    + dt.hour * 3600 + dt.minute * 60 + dt.second

/-- `Datetime` of a second count (inverse of `toSecs` on civil dates). -/
def Datetime.ofSecs (t : Int) : Datetime :=
  let days := Int.fdiv t 86400
  let sod := t - days * 86400
  let c := civilFromDays days
  ⟨c.1, c.2.1, c.2.2, Int.fdiv sod 3600, Int.fdiv (Int.emod sod 3600) 60, Int.emod sod 60⟩

/-- Python `timedelta`, by its total number of seconds. -/
abbrev Timedelta := Int

/-- Python `datetime + timedelta` (modelled total; Python raises
`OverflowError` outside years 1..9999, which real metadata never reaches). -/
def addTd (dt : Datetime) (t : Timedelta) : Datetime :=
  Datetime.ofSecs (dt.toSecs + t)

/-! ## parse_date (sortmedia.py lines 69-135) -/

/-- Hour, minute and second from the part of the time token before the
first sign separator (`sortmedia.py` lines 104-111); defaults `12:00:00`
when the shape fits neither `HH:MM:SS` nor `HH:MM`. -/
def parseHms (t0 : List Char) : Except Unit (Int × Int × Int) :=
  match pySplitOn ':' t0 with
  | [a, b, c] =>
    match pyInt? a, pyInt? b, pyInt? ((pySplitOn '.' c).headD []) with
    | some h, some mi, some s => .ok (h, mi, s)
    | _, _, _ => .error ()
  | [a, b] =>
    match pyInt? a, pyInt? b with
    | some h, some mi => .ok (h, mi, 0)
    | _, _ => .error ()
  | _ => .ok (12, 0, 0)

/-- UTC offset from the split time token (`sortmedia.py` lines 113-121):
a captured separator followed by an `HH:MM` remainder yields a signed
offset (negated for `-`); every other shape keeps the default `0`. -/
def parseOff (tes : List (List Char)) : Except Unit Timedelta :=
  match tes with
  | _ :: t1 :: t2 :: _ =>
    (match pySplitOn ':' t2 with
     | [ohs, oms] =>
       (match pyInt? ohs, pyInt? oms with
        | some oh, some om =>
          .ok (if t1 == ['-'] then -(oh * 3600 + om * 60) else oh * 3600 + om * 60)
        | _, _ => .error ())
     | _ => .ok 0)
  | _ => .ok 0

/-- Embedding of `sortmedia.py` lines 100-121: given the time token of the
input (the text after the first whitespace), produce hour, minute, second
and UTC offset. -/
def parseTimeOffset (e1 : List Char) : Except Unit (Int × Int × Int × Timedelta) :=
  let tes := reSplitSigns e1
  match parseHms (tes.headD []) with
  | .error e => .error e
  | .ok hms =>
    match parseOff tes with
    | .error e => .error e
    | .ok off => .ok (hms.1, hms.2.1, hms.2.2, off)

/-- Embedding of `parse_date` (`sortmedia.py` lines 69-135).  Returns the
pair `(date, offset)`; `(none, none)` is the explicit "unparseable" result
and `.error ()` an uncaught `ValueError` from `int()` on garbage fields.
The trailing `strftime` sanity guard (lines 130-133) is modelled as
rejecting years before 1900 (see the file comment). -/
def parse_date (text : String) : Except Unit (Option Datetime × Option Timedelta) :=
  match pySplitWs text.data with
  | [] => .ok (none, none)
  | e0 :: es =>
    match pySplitOn ':' e0 with
    | [ys, ms, ds] =>
      if pyStrGt ys ['0', '0', '0', '0'] && !((ys ++ ms ++ ds).contains '.') then
        match pyInt? ys, pyInt? ms, pyInt? ds with
        | some year, some month, some day =>
          (match ((match es with
            | [] => .ok ((12 : Int), (0 : Int), (0 : Int), (0 : Timedelta))
            | e1 :: _ => parseTimeOffset e1) :
              Except Unit (Int × Int × Int × Timedelta)) with
          | .error e => .error e
          | .ok tpo =>
            match mkDatetime? year month day tpo.1 tpo.2.1 tpo.2.2.1 with
            | none => .ok (none, none)
            | some dt =>
              if dt.year < 1900 then .ok (none, none)
              else .ok (some dt, some tpo.2.2.2))
        | _, _, _ => .error ()
      else .ok (none, none)
    | _ => .ok (none, none)

/-! ## format_offset and get_offset (sortmedia.py lines 42-66) -/

/-- Embedding of `format_offset` (`sortmedia.py` lines 42-47).
`int(offset.total_seconds() / 60)` truncates toward zero, i.e. `Int.tdiv`. -/
def format_offset (offset : Timedelta) : String :=
  let diffMin := Int.tdiv offset 60
  (if diffMin < 0 then ⟨['-', ' ']⟩ else ⟨['+', ' ']⟩)
    ++ pad2 (diffMin.natAbs / 60) ++ ⟨[':']⟩ ++ pad2 (diffMin.natAbs % 60)

/-- The external collaborators used by `get_offset`: the offline timezone
finder (`certain_timezone_at`, which may return no zone or raise) and the
pytz computation `utc.localize(date) - timezone(name).localize(date)`
(which may raise, e.g. `UnknownTimeZoneError`).  `.error ()` models any
raised exception. -/
structure TzWorld where
  certainTimezoneAt : Int → Int → Except Unit (Option String)
  utcOffsetAt : String → Datetime → Except Unit Timedelta

/-- Embedding of `get_offset` (`sortmedia.py` lines 50-66): every failure
of the collaborators is caught by the surrounding `try`/`except` and
becomes `none`. -/
def get_offset (w : TzWorld) (lat lng : Int) (date : Datetime) : Option Timedelta :=
  match w.certainTimezoneAt lat lng with
  | .error _ => none
  | .ok none => none
  | .ok (some tzName) =>
    match w.utcOffsetAt tzName date with
    | .error _ => none
    | .ok off => some off

/-! ## get_date (sortmedia.py lines 138-182) -/

def MEDIA_TYPE_PHOTO : String := "photo"
def MEDIA_TYPE_VIDEO : String := "video"
def TAG_DATE_PHOTO : String := "EXIF:DateTimeOriginal"
def TAG_DATE_VIDEO : String := "QuickTime:CreateDate"
def TAG_DATE_FILE : String := "File:FileModifyDate"

/-- One ExifTool metadata record, restricted to the tags `sort` requests
for photos and videos (`sortmedia.py` lines 200-205).  An `Option` field
is `some` exactly when the corresponding `Group:Tag` key is present in the
JSON record; GPS coordinate values are opaque to the core (they are only
forwarded to the timezone resolver), hence `Int` placeholders. -/
structure MediaData where
  sourceFile : String
  tagDatePhoto : Option String
  tagDateVideo : Option String
  tagDateFile : Option String
  gpsLatitude : Option Int
  gpsLongitude : Option Int
deriving DecidableEq

/-- The timezone offset resolver as seen by `get_date`: in the source this
is the function `get_offset` with its `TzWorld` fixed. -/
abbrev Resolver := Int → Int → Datetime → Option Timedelta

/-- Embedding of `sortmedia.py` lines 174-180: the `File:FileModifyDate`
corroboration heuristic and the final assume-local fallback for videos. -/
def videoFallback (data : MediaData) (d : Datetime) :
    Except Unit (Option Datetime × Option String) :=
  let assumedLocal : Except Unit (Option Datetime × Option String) :=
    .ok (some d, some (TAG_DATE_VIDEO ++ (" assumed in local time" : String)))
  match data.tagDateFile with
  | some fv =>
    (match parse_date fv with
     | .error e => .error e
     | .ok r =>
       match r.1, r.2 with
       | some dateFile, some offsetFile =>
         if (dateFile.toSecs - offsetFile - d.toSecs).natAbs ≤ 3 then
           .ok (some (addTd d offsetFile),
             some (TAG_DATE_VIDEO ++ (" in UTC " : String) ++ format_offset offsetFile
               ++ (" via File" : String)))
         else assumedLocal
       | _, _ => assumedLocal)
  | none => assumedLocal

/-- Embedding of `get_date` (`sortmedia.py` lines 138-182), with the
timezone resolver abstracted as a parameter. -/
def get_date (resolver : Resolver) (data : MediaData) (media_type : String) :
    Except Unit (Option Datetime × Option String) :=
  if media_type == MEDIA_TYPE_PHOTO then
    match data.tagDatePhoto with
    | some v =>
      (match parse_date v with
       | .error e => .error e
       | .ok r =>
         match r.1 with
         | some d =>
           .ok (some d, some (TAG_DATE_PHOTO ++ (" defined in local time" : String)))
         | none => .ok (none, none))
    | none => .ok (none, none)
  else if media_type == MEDIA_TYPE_VIDEO then
    match data.tagDateVideo with
    | some v =>
      (match parse_date v with
       | .error e => .error e
       | .ok r =>
         match r.1 with
         | some d =>
           (match data.gpsLatitude, data.gpsLongitude with
            | some lat, some lng =>
              (match resolver lat lng d with
               | some offsetGps =>
                .ok (some (addTd d offsetGps),
                  some (TAG_DATE_VIDEO ++ (" in UTC " : String) ++ format_offset offsetGps
                    ++ (" via GPS" : String)))
               | none => videoFallback data d)
            | _, _ => videoFallback data d)
         | none => .ok (none, none))
    | none => .ok (none, none)
  else .ok (none, none)

/-! ## Path helpers (os.path on POSIX) -/

/-- Python `os.path.basename`: everything after the last `/`. -/
def basename (p : String) : String :=
  ⟨(p.data.reverse.takeWhile (fun c => !(c == '/'))).reverse⟩

/-- Python `os.path.join(a, b)` on POSIX for the shapes `sort` uses. -/
def pathJoin (a b : String) : String :=
  if strStartsWith b ⟨['/']⟩ then b
  else if a == ("" : String) || String.mk (a.data.reverse.take 1) == ⟨['/']⟩ then a ++ b
  else a ++ ⟨['/']⟩ ++ b

/-- Index of the last occurrence of `c` in `cs`, if any. -/
def rfindAux (c : Char) : List Char → Option Nat
  | [] => none
  | x :: xs =>
    match rfindAux c xs with
    | some i => some (i + 1)
    | none => if x == c then some 0 else none

/-- Python `os.path.splitext` on POSIX (`genericpath._splitext`): split at
the last dot after the last separator, unless the basename consists only
of leading dots up to that point. -/
def splitext (p : String) : String × String :=
  let cs := p.data
  match rfindAux '.' cs with
  | none => (p, "")
  | some di =>
    let si1 : Nat :=
      match rfindAux '/' cs with
      | none => 0
      | some si => si + 1
    if si1 ≤ di then
      if ((cs.drop si1).take (di - si1)).any (fun c => !(c == '.')) then
        (⟨cs.take di⟩, ⟨cs.drop di⟩)
      else (p, "")
    else (p, "")

/-- ASCII lower-casing of one character (`str.lower` on the extensions the
tool meets). -/
def charLower (c : Char) : Char :=
  if 65 ≤ c.toNat && c.toNat ≤ 90 then Char.ofNat (c.toNat + 32) else c

/-- Python `str.lower()`. -/
def pyLower (s : String) : String := ⟨s.data.map charLower⟩

/-! ## The sort loop (sortmedia.py lines 185-364)

The loop from line 244 to line 359 is embedded.  Directory validation,
the ExifTool invocation and all console output are outside the modelled
core (they are collaborators per the specification).  The filesystem is a
finite map from file path to an opaque content identifier: two paths hold
byte-identical files exactly when their identifiers are equal
(`filecmp.cmp` is the `contentsEqual` collaborator of the spec).
`os.makedirs` only creates directories, which never collide with the file
paths the loop tests with `os.path.isfile`, so it needs no model. -/

/-- Filesystem model: association list from path to content identifier. -/
structure FS where
  files : List (String × Nat)
deriving DecidableEq

/-- Content at a path (`none`: no such file). -/
def FS.read (fs : FS) (p : String) : Option Nat := fs.files.lookup p

/-- Python `os.path.isfile`. -/
def FS.isfile (fs : FS) (p : String) : Bool := (fs.read p).isSome

/-- Create or overwrite the file at `p` with content `c`. -/
def FS.write (fs : FS) (p : String) (c : Nat) : FS := ⟨(p, c) :: fs.files⟩

/-- Python `os.remove` (every entry for the path disappears). -/
def FS.remove (fs : FS) (p : String) : FS :=
  ⟨fs.files.filter (fun e => !(e.1 == p))⟩

/-- The per-run state of the loop: filesystem, the dry-run ledger
`test_file_dict`, the three counters and the processed pair list. -/
structure SortState where
  fs : FS
  dict : List (String × String)
  numIgnored : Nat
  numDuplicates : Nat
  numProcessed : Nat
  processed : List (String × String)
deriving DecidableEq

/-- The static configuration of one `sort` call. -/
structure SortConfig where
  mediaType : String
  dstDir : String
  copy : Bool
  keep : Bool
  test : Bool
  subdirFormat : String
  filenameFormat : Option String
deriving DecidableEq

/-- External collaborators of the loop: `strftime` template formatting and
the timezone resolver used inside `get_date`. -/
structure SortEnv where
  strftime : Datetime → String → String
  resolver : Resolver

/-- The suffixed candidate produced by line 334:
`dst_root + '_' + str(appendix) + dst_ext`. -/
def suffixCand (dstRoot dstExt : String) (k : Nat) : String :=
  dstRoot ++ ⟨['_']⟩ ++ natStr k ++ dstExt

/-- Embedding of the collision `while` loop (`sortmedia.py` lines
317-340).  Arguments after the configuration: remaining fuel, the current
candidate `dst_file` and the current `same_name_appendix`.  The result is
`some (dst_file, identical_file_exists, suffixes)` where `suffixes` lists
the appendix values used by renames, in order; `.ok none` is returned on
fuel exhaustion (`collisionLoop_fuel_sufficient` shows the fuel passed by
`processRecord` never exhausts), and `.error ()` is the `filecmp.cmp` OSError
raise when a compared file is missing. -/
def collisionLoop (fs : FS) (dict : List (String × String)) (keep test : Bool)
    (srcFile dstRoot dstExt : String) :
    Nat → String → Nat → Except Unit (Option (String × Bool × List Nat))
  | 0, _, _ => .ok none
  | fuel + 1, dstFile, app =>
    let onDisk := fs.isfile dstFile
    if onDisk || (test && (dict.lookup dstFile).isSome) then
      let dstCompare := if onDisk then dstFile else (dict.lookup dstFile).getD ""
      if !keep then
        match fs.read srcFile, fs.read dstCompare with
        | some a, some b =>
          if a == b then .ok (some (dstFile, true, []))
          else
            (match collisionLoop fs dict keep test srcFile dstRoot dstExt fuel
              (suffixCand dstRoot dstExt app) (app + 1) with
             | .error e => .error e
             | .ok none => .ok none
             | .ok (some (d, idf, tr)) => .ok (some (d, idf, app :: tr)))
        | _, _ => .error ()
      else
        (match collisionLoop fs dict keep test srcFile dstRoot dstExt fuel
          (suffixCand dstRoot dstExt app) (app + 1) with
         | .error e => .error e
         | .ok none => .ok none
         | .ok (some (d, idf, tr)) => .ok (some (d, idf, app :: tr)))
    else .ok (some (dstFile, false, []))

/-- Lines 290-310: the first candidate destination path of a record, from
the resolved date, the subdirectory template, the optional filename
template and the source basename. -/
def candidateDst (env : SortEnv) (cfg : SortConfig) (srcFile : String)
    (date : Datetime) : String :=
  let dstSubdirs := (pySplitOn '/' (env.strftime date cfg.subdirFormat).data).map String.mk
  let dstPath := dstSubdirs.foldl pathJoin cfg.dstDir
  let filename :=
    match cfg.filenameFormat with
    | none => basename srcFile
    | some fmt =>
      let name := env.strftime date fmt
      let ext0 := pyLower (splitext (basename srcFile)).2
      let ext := if ext0 == (".jpeg" : String) then (".jpg" : String) else ext0
      name ++ ext
  pathJoin dstPath filename

/-- The ignorable-path test of lines 262-276 (one disjunct per special
character): a path is skipped when it starts with `.` (but not with `./`),
`@` or `#`, or contains `/.`, `/@` or `/#`. -/
def ignorablePath (srcFile : String) : Bool :=
  (strStartsWith srcFile ⟨['.']⟩ && !(strStartsWith srcFile ⟨['.', '/']⟩))
    || strContains srcFile ⟨['/', '.']⟩
    || strStartsWith srcFile ⟨['@']⟩ || strContains srcFile ⟨['/', '@']⟩
    || strStartsWith srcFile ⟨['#']⟩ || strContains srcFile ⟨['/', '#']⟩

/-- Embedding of one iteration of the `for` loop over metadata records
(`sortmedia.py` lines 244-359).  Mirrors the source order: `get_date`
first (line 250), then the ignorable-path filters (262-276), the missing-
date filter (279-283), destination computation (290-310), the collision
loop (317-340), the dry-run ledger update (341-342) and the transfer
(345-359).  `shutil.copy2`/`shutil.move` on a missing source raise. -/
def processRecord (cfg : SortConfig) (env : SortEnv) (st : SortState)
    (data : MediaData) : Except Unit SortState :=
  match get_date env.resolver data cfg.mediaType with
  | .error e => .error e
  | .ok r =>
    if ignorablePath data.sourceFile then
      .ok { st with numIgnored := st.numIgnored + 1 }
    else
      match r.1 with
      | none => .ok { st with numIgnored := st.numIgnored + 1 }
      | some date =>
        let dstFile0 := candidateDst env cfg data.sourceFile date
        let se := splitext dstFile0
        let fuel := st.fs.files.length + st.dict.length + 1
        match collisionLoop st.fs st.dict cfg.keep cfg.test data.sourceFile
            se.1 se.2 fuel dstFile0 1 with
        | .error e => .error e
        | .ok none => .error ()
        | .ok (some (dstFile, identical, _tr)) =>
          let dict' := if cfg.test then (dstFile, data.sourceFile) :: st.dict else st.dict
          if identical then
            .ok { st with
              dict := dict',
              fs := if !cfg.test && !cfg.copy then st.fs.remove data.sourceFile else st.fs,
              numDuplicates := st.numDuplicates + 1 }
          else
            match (if cfg.test then some st.fs
              else match st.fs.read data.sourceFile with
                | none => none
                | some c =>
                  some ((if cfg.copy then st.fs else st.fs.remove data.sourceFile).write dstFile c)) with
            | none => .error ()
            | some fs' =>
              .ok { st with
                dict := dict',
                fs := fs',
                numProcessed := st.numProcessed + 1,
                processed := st.processed ++ [(data.sourceFile, dstFile)] }

/-- The `for` loop over all records, threading the state. -/
def runRecords (cfg : SortConfig) (env : SortEnv) :
    SortState → List MediaData → Except Unit SortState
  | st, [] => .ok st
  | st, rec :: rest =>
    match processRecord cfg env st rec with
    | .error e => .error e
    | .ok st' => runRecords cfg env st' rest

/-- The state at the start of a run (lines 228-242): counters zero, empty
ledger, the filesystem as found on disk. -/
def initState (fs0 : FS) : SortState :=
  { fs := fs0, dict := [], numIgnored := 0, numDuplicates := 0,
    numProcessed := 0, processed := [] }

/-- Embedding of the modelled core of `sort` (`sortmedia.py` lines
228-364): run the per-record pipeline over the whole metadata list. -/
def sortRun (cfg : SortConfig) (env : SortEnv) (fs0 : FS)
    (metadata : List MediaData) : Except Unit SortState :=
  runRecords cfg env (initState fs0) metadata

/-! ## Lemmas: decimal rendering is injective -/

/-- Value of a digit string, inverse of `natStrAux`. -/
def charsVal (cs : List Char) : Nat :=
  cs.foldl (fun a c => a * 10 + (c.toNat - 48)) 0

theorem digitChar_toNat : ∀ n, n < 10 → (digitChar n).toNat = 48 + n := by decide

theorem charsVal_append_digit (xs : List Char) (d : Char) :
    charsVal (xs ++ [d]) = charsVal xs * 10 + (d.toNat - 48) := by
  unfold charsVal
  rw [List.foldl_append, List.foldl_cons, List.foldl_nil]

theorem charsVal_natStrAux : ∀ fuel n, n < fuel → charsVal (natStrAux fuel n) = n := by
  intro fuel
  induction fuel with
  | zero => omega
  | succ fuel ih =>
    intro n hn
    by_cases h10 : n < 10
    · rw [show natStrAux (fuel + 1) n = [digitChar n] by rw [natStrAux, if_pos h10]]
      simp [charsVal, digitChar_toNat n h10]
    · have hdiv : n / 10 < n := Nat.div_lt_self (by omega) (by omega)
      have hih : charsVal (natStrAux fuel (n / 10)) = n / 10 := ih (n / 10) (by omega)
      rw [show natStrAux (fuel + 1) n
          = natStrAux fuel (n / 10) ++ [digitChar (n % 10)] by
        rw [natStrAux, if_neg h10]]
      rw [charsVal_append_digit, hih, digitChar_toNat (n % 10) (Nat.mod_lt n (by omega))]
      omega

theorem natStr_inj {m n : Nat} (h : natStr m = natStr n) : m = n := by
  have hd : natStrAux (m + 1) m = natStrAux (n + 1) n := congrArg String.data h
  have hm := charsVal_natStrAux (m + 1) m (by omega)
  have hn := charsVal_natStrAux (n + 1) n (by omega)
  rw [hd, hn] at hm
  omega

theorem natStr_length_pos (n : Nat) : 0 < (natStr n).data.length := by
  show 0 < (natStrAux (n + 1) n).length
  by_cases h10 : n < 10
  · simp [natStrAux, h10]
  · simp [natStrAux, h10]

/-! ## Lemmas: the suffixed candidates are pairwise distinct -/

theorem suffixCand_data (r e : String) (k : Nat) :
    (suffixCand r e k).data = r.data ++ '_' :: ((natStr k).data ++ e.data) := by
  simp [suffixCand, String.data_append]

theorem suffixCand_inj (r e : String) {j k : Nat}
    (h : suffixCand r e j = suffixCand r e k) : j = k := by
  have hd := congrArg String.data h
  rw [suffixCand_data, suffixCand_data] at hd
  have h1 := List.append_cancel_left hd
  have h2 : (natStr j).data ++ e.data = (natStr k).data ++ e.data := by
    injection h1
  exact natStr_inj (String.ext (List.append_cancel_right h2))

theorem suffixCand_length (r e : String) (k : Nat) :
    (suffixCand r e k).data.length
      = r.data.length + e.data.length + 1 + (natStr k).data.length := by
  rw [suffixCand_data]
  simp [List.length_append]
  omega

theorem ne_suffixCand_of_length {p r e : String}
    (h : p.data.length = r.data.length + e.data.length) (k : Nat) :
    p ≠ suffixCand r e k := by
  intro he
  have := congrArg (fun s => s.data.length) he
  simp only [suffixCand_length] at this
  have := natStr_length_pos k
  omega

/-- `os.path.splitext` splits the path: concatenating root and extension
restores the input. -/
theorem splitext_concat (p : String) : (splitext p).1 ++ (splitext p).2 = p := by
  cases hdot : rfindAux '.' p.data with
  | none => simp [splitext, hdot]
  | some di =>
    simp only [splitext, hdot]
    split
    · split
      · apply String.ext
        simp [String.data_append, List.take_append_drop]
      · simp
    · simp

theorem splitext_length (p : String) :
    p.data.length = (splitext p).1.data.length + (splitext p).2.data.length := by
  conv_lhs => rw [← splitext_concat p]
  simp [String.data_append]

/-! ## Lemmas: the collision loop -/

/-- The loop's continuation condition at line 322: the candidate exists on
disk or — in dry-run mode — is already claimed in the ledger. -/
def occupiedPath (fs : FS) (dict : List (String × String)) (test : Bool) (p : String) : Bool :=
  fs.isfile p || (test && (dict.lookup p).isSome)

/-- The occupant the loop compares against (lines 323-326). -/
def comparePath (fs : FS) (dict : List (String × String)) (p : String) : String :=
  if fs.isfile p then p else (dict.lookup p).getD ""

theorem collisionLoop_trace (fs : FS) (dict : List (String × String))
    (keep test : Bool) (src root ext : String) :
    ∀ fuel d0 app d b tr,
      collisionLoop fs dict keep test src root ext fuel d0 app
        = .ok (some (d, b, tr)) →
      tr = List.range' app tr.length := by
  intro fuel
  induction fuel with
  | zero =>
    intro d0 app d b tr h
    simp [collisionLoop] at h
  | succ fuel ih =>
    intro d0 app d b tr h
    simp only [collisionLoop] at h
    split at h
    · split at h
      · split at h
        · split at h
          · cases h
            rfl
          · cases hrec : collisionLoop fs dict keep test src root ext fuel
                (suffixCand root ext app) (app + 1) with
            | error e => rw [hrec] at h; cases h
            | ok o =>
              rw [hrec] at h
              cases o with
              | none => cases h
              | some t =>
                obtain ⟨d', idf, tr'⟩ := t
                cases h
                have h' := ih _ _ _ _ _ hrec
                simp only [List.length_cons]
                rw [List.range'_succ]
                exact congrArg (app :: ·) h'
        · cases h
      · cases hrec : collisionLoop fs dict keep test src root ext fuel
            (suffixCand root ext app) (app + 1) with
        | error e => rw [hrec] at h; cases h
        | ok o =>
          rw [hrec] at h
          cases o with
          | none => cases h
          | some t =>
            obtain ⟨d', idf, tr'⟩ := t
            cases h
            have h' := ih _ _ _ _ _ hrec
            simp only [List.length_cons]
            rw [List.range'_succ]
            exact congrArg (app :: ·) h'
    · cases h
      rfl

/-- A final candidate accepted by the `else: break` branch (line 339-340)
is unoccupied: not on disk and, in dry-run mode, not in the ledger. -/
theorem collisionLoop_free (fs : FS) (dict : List (String × String))
    (keep test : Bool) (src root ext : String) :
    ∀ fuel d0 app d tr,
      collisionLoop fs dict keep test src root ext fuel d0 app
        = .ok (some (d, false, tr)) →
      occupiedPath fs dict test d = false := by
  intro fuel
  induction fuel with
  | zero =>
    intro d0 app d tr h
    simp [collisionLoop] at h
  | succ fuel ih =>
    intro d0 app d tr h
    simp only [collisionLoop] at h
    split at h
    · rename_i hocc
      split at h
      · split at h
        · split at h
          · cases h
          · cases hrec : collisionLoop fs dict keep test src root ext fuel
                (suffixCand root ext app) (app + 1) with
            | error e => rw [hrec] at h; cases h
            | ok o =>
              rw [hrec] at h
              cases o with
              | none => cases h
              | some t =>
                obtain ⟨d', idf, tr'⟩ := t
                cases h
                exact ih _ _ _ _ hrec
        · cases h
      · cases hrec : collisionLoop fs dict keep test src root ext fuel
            (suffixCand root ext app) (app + 1) with
        | error e => rw [hrec] at h; cases h
        | ok o =>
          rw [hrec] at h
          cases o with
          | none => cases h
          | some t =>
            obtain ⟨d', idf, tr'⟩ := t
            cases h
            exact ih _ _ _ _ hrec
    · rename_i hocc
      cases h
      revert hocc
      unfold occupiedPath
      cases fs.isfile d0 || (test && (dict.lookup d0).isSome) <;> simp

/-- A duplicate break (lines 328-332) happens only with duplicate-removal
enabled, at an occupied candidate whose compared occupant has the same
content as the source. -/
theorem collisionLoop_dup (fs : FS) (dict : List (String × String))
    (keep test : Bool) (src root ext : String) :
    ∀ fuel d0 app d tr,
      collisionLoop fs dict keep test src root ext fuel d0 app
        = .ok (some (d, true, tr)) →
      keep = false ∧ occupiedPath fs dict test d = true ∧
      ∃ c, fs.read src = some c ∧ fs.read (comparePath fs dict d) = some c := by
  intro fuel
  induction fuel with
  | zero =>
    intro d0 app d tr h
    simp [collisionLoop] at h
  | succ fuel ih =>
    intro d0 app d tr h
    simp only [collisionLoop] at h
    split at h
    · rename_i hocc
      split at h
      · rename_i hkeep
        split at h
        · rename_i ha hb
          split at h
          · rename_i hab
            cases h
            refine ⟨by simpa using hkeep, ?_, ?_⟩
            · revert hocc
              unfold occupiedPath
              cases fs.isfile d0 || (test && (dict.lookup d0).isSome) <;> simp
            · refine ⟨_, ha, ?_⟩
              unfold comparePath
              rw [hb]
              exact congrArg some (beq_iff_eq.mp hab).symm
          · cases hrec : collisionLoop fs dict keep test src root ext fuel
                (suffixCand root ext app) (app + 1) with
            | error e => rw [hrec] at h; cases h
            | ok o =>
              rw [hrec] at h
              cases o with
              | none => cases h
              | some t =>
                obtain ⟨d', idf, tr'⟩ := t
                cases h
                exact ih _ _ _ _ hrec
        · cases h
      · cases hrec : collisionLoop fs dict keep test src root ext fuel
            (suffixCand root ext app) (app + 1) with
        | error e => rw [hrec] at h; cases h
        | ok o =>
          rw [hrec] at h
          cases o with
          | none => cases h
          | some t =>
            obtain ⟨d', idf, tr'⟩ := t
            cases h
            exact ih _ _ _ _ hrec
    · cases h

/-- If the loop exhausts its fuel, every candidate it visited — the
initial one and the `fuel - 1` successive suffixed names — was occupied. -/
theorem collisionLoop_none_occupied (fs : FS) (dict : List (String × String))
    (keep test : Bool) (src root ext : String) :
    ∀ fuel d0 app,
      collisionLoop fs dict keep test src root ext fuel d0 app = .ok none →
      1 ≤ fuel →
      occupiedPath fs dict test d0 = true ∧
      ∀ i, i + 1 < fuel → occupiedPath fs dict test (suffixCand root ext (app + i)) = true := by
  intro fuel
  induction fuel with
  | zero =>
    intro d0 app h hf
    omega
  | succ fuel ih =>
    intro d0 app h _
    simp only [collisionLoop] at h
    split at h
    · rename_i hocc
      have hrecnone :
          collisionLoop fs dict keep test src root ext fuel
            (suffixCand root ext app) (app + 1) = .ok none := by
        split at h
        · split at h
          · split at h
            · cases h
            · cases hrec : collisionLoop fs dict keep test src root ext fuel
                  (suffixCand root ext app) (app + 1) with
              | error e => rw [hrec] at h; cases h
              | ok o =>
                rw [hrec] at h
                cases o with
                | none => rfl
                | some t => obtain ⟨d', idf, tr'⟩ := t; cases h
          · cases h
        · cases hrec : collisionLoop fs dict keep test src root ext fuel
              (suffixCand root ext app) (app + 1) with
          | error e => rw [hrec] at h; cases h
          | ok o =>
            rw [hrec] at h
            cases o with
            | none => rfl
            | some t => obtain ⟨d', idf, tr'⟩ := t; cases h
      refine ⟨by simpa [occupiedPath] using hocc, ?_⟩
      by_cases hf0 : fuel = 0
      · intro i hi
        omega
      · obtain ⟨h1, h2⟩ := ih (suffixCand root ext app) (app + 1) hrecnone (by omega)
        intro i hi
        cases i with
        | zero => simpa using h1
        | succ j =>
          have harith : app + (j + 1) = (app + 1) + j := by omega
          rw [harith]
          exact h2 j (by omega)
    · cases h

/-- A `some`-valued lookup means the key occurs among the keys. -/
theorem lookup_isSome_mem {β : Type} (p : String) :
    ∀ l : List (String × β), (List.lookup p l).isSome = true → p ∈ l.map Prod.fst := by
  intro l
  induction l with
  | nil => simp [List.lookup]
  | cons e es ih =>
    obtain ⟨k, v⟩ := e
    intro h
    rw [List.lookup_cons] at h
    cases hbeq : p == k with
    | true =>
      simp only [List.map_cons, List.mem_cons]
      exact Or.inl (beq_iff_eq.mp hbeq)
    | false =>
      rw [hbeq] at h
      exact List.mem_cons_of_mem _ (ih h)

/-- An occupied path is a key of the filesystem map or of the ledger. -/
theorem occupied_mem_keys (fs : FS) (dict : List (String × String)) (test : Bool)
    (p : String) (h : occupiedPath fs dict test p = true) :
    p ∈ fs.files.map Prod.fst ++ dict.map Prod.fst := by
  unfold occupiedPath at h
  rw [Bool.or_eq_true] at h
  cases h with
  | inl h => exact List.mem_append_left _ (lookup_isSome_mem p fs.files h)
  | inr h =>
    rw [Bool.and_eq_true] at h
    exact List.mem_append_right _ (lookup_isSome_mem p dict h.2)

/-- Termination of the collision loop: with the fuel `processRecord`
passes — one more than the number of filesystem plus ledger entries — the
loop cannot exhaust, because the candidates it would visit are pairwise
distinct and each would have to be an occupied path. -/
theorem collisionLoop_fuel_sufficient (fs : FS) (dict : List (String × String))
    (keep test : Bool) (src root ext d0 : String)
    (hlen : d0.data.length = root.data.length + ext.data.length) :
    collisionLoop fs dict keep test src root ext
      (fs.files.length + dict.length + 1) d0 1 ≠ .ok none := by
  intro h
  obtain ⟨h0, hs0⟩ := collisionLoop_none_occupied fs dict keep test src root ext
    (fs.files.length + dict.length + 1) d0 1 h (by omega)
  have hs : ∀ i, i < fs.files.length + dict.length →
      occupiedPath fs dict test (suffixCand root ext (1 + i)) = true := by
    intro i hi
    exact hs0 i (by omega)
  have hnodupL :
      (d0 :: (List.range (fs.files.length + dict.length)).map
        (fun i => suffixCand root ext (1 + i))).Nodup := by
    rw [List.nodup_cons]
    constructor
    · intro hmem
      obtain ⟨i, _, hi⟩ := List.mem_map.mp hmem
      exact ne_suffixCand_of_length hlen (1 + i) hi.symm
    · refine List.Nodup.map ?_ (List.nodup_range _)
      intro a b hab
      have := suffixCand_inj root ext hab
      omega
  have hsub : ∀ p ∈ (d0 :: (List.range (fs.files.length + dict.length)).map
      (fun i => suffixCand root ext (1 + i))),
      p ∈ fs.files.map Prod.fst ++ dict.map Prod.fst := by
    intro p hp
    rcases List.mem_cons.mp hp with hp0 | hpm
    · exact hp0 ▸ occupied_mem_keys fs dict test d0 h0
    · obtain ⟨i, hir, hi⟩ := List.mem_map.mp hpm
      have hiN := List.mem_range.mp hir
      have := hs i hiN
      rw [show (1 : Nat) + i = 1 + i from rfl] at hi
      exact hi ▸ occupied_mem_keys fs dict test _ (by
        have : (1 : Nat) + i = 1 + i := rfl
        simpa [Nat.add_comm] using hs i hiN)
  have hle := (List.subperm_of_subset hnodupL hsub).length_le
  simp only [List.length_cons, List.length_map, List.length_range,
    List.length_append] at hle
  omega

/-! ## Lemmas: filesystem operations -/

theorem lookup_filter_ne {β : Type} (p q : String) (l : List (String × β)) :
    List.lookup q (l.filter (fun e => !(e.1 == p)))
      = if q = p then none else List.lookup q l := by
  induction l with
  | nil => simp [List.lookup]
  | cons e es ih =>
    obtain ⟨k, v⟩ := e
    rw [List.filter_cons]
    by_cases hk : k = p
    · subst hk
      simp only [beq_self_eq_true, Bool.not_true, Bool.false_eq_true, if_false, ih,
        List.lookup_cons]
      by_cases hq : q = k
      · simp [hq]
      · simp [hq, beq_eq_false_iff_ne.mpr hq]
    · simp only [beq_eq_false_iff_ne.mpr hk, Bool.not_false, if_true, List.lookup_cons]
      by_cases hq : q = k
      · subst hq
        simp [beq_self_eq_true, hk]
      · simp [beq_eq_false_iff_ne.mpr hq, ih]

theorem FS.read_write (fs : FS) (p : String) (c : Nat) (q : String) :
    (fs.write p c).read q = if q = p then some c else fs.read q := by
  show List.lookup q ((p, c) :: fs.files) = _
  rw [List.lookup_cons]
  by_cases hq : q = p
  · simp [beq_iff_eq.mpr hq, hq]
  · simp [beq_eq_false_iff_ne.mpr hq, hq, FS.read]

theorem FS.read_remove (fs : FS) (p q : String) :
    (fs.remove p).read q = if q = p then none else fs.read q := by
  show List.lookup q (fs.files.filter (fun e => !(e.1 == p))) = _
  rw [lookup_filter_ne]
  rfl

theorem FS.isfile_write (fs : FS) (p : String) (c : Nat) (q : String) :
    (fs.write p c).isfile q = if q = p then true else fs.isfile q := by
  unfold FS.isfile
  rw [FS.read_write]
  by_cases hq : q = p <;> simp [hq]

theorem FS.isfile_remove (fs : FS) (p q : String) :
    (fs.remove p).isfile q = if q = p then false else fs.isfile q := by
  unfold FS.isfile
  rw [FS.read_remove]
  by_cases hq : q = p <;> simp [hq]

/-! ## Lemmas: one iteration of the sort loop -/

/-- The collision-loop call `processRecord` makes for a record resolved to
`date`. -/
def theLoop (cfg : SortConfig) (env : SortEnv) (st : SortState) (data : MediaData)
    (date : Datetime) : Except Unit (Option (String × Bool × List Nat)) :=
  collisionLoop st.fs st.dict cfg.keep cfg.test data.sourceFile
    (splitext (candidateDst env cfg data.sourceFile date)).1
    (splitext (candidateDst env cfg data.sourceFile date)).2
    (st.fs.files.length + st.dict.length + 1)
    (candidateDst env cfg data.sourceFile date) 1

/-- Exhaustive description of a successful loop iteration: the record is
counted as ignored, as a duplicate, or as processed, with the exact state
update of each branch. -/
theorem processRecord_ok_cases (cfg : SortConfig) (env : SortEnv) (st : SortState)
    (data : MediaData) (st' : SortState)
    (h : processRecord cfg env st data = .ok st') :
    st' = { st with numIgnored := st.numIgnored + 1 } ∨
    (∃ date dstFile tr,
      theLoop cfg env st data date = .ok (some (dstFile, true, tr)) ∧
      st' = { st with
        dict := if cfg.test then (dstFile, data.sourceFile) :: st.dict else st.dict,
        fs := if !cfg.test && !cfg.copy then st.fs.remove data.sourceFile else st.fs,
        numDuplicates := st.numDuplicates + 1 }) ∨
    (∃ date dstFile tr fs',
      theLoop cfg env st data date = .ok (some (dstFile, false, tr)) ∧
      ((cfg.test = true ∧ fs' = st.fs) ∨
       (cfg.test = false ∧ ∃ c, st.fs.read data.sourceFile = some c ∧
          fs' = ((if cfg.copy then st.fs else st.fs.remove data.sourceFile).write dstFile c))) ∧
      st' = { st with
        dict := if cfg.test then (dstFile, data.sourceFile) :: st.dict else st.dict,
        fs := fs',
        numProcessed := st.numProcessed + 1,
        processed := st.processed ++ [(data.sourceFile, dstFile)] }) := by
  simp only [processRecord] at h
  split at h
  · cases h
  · rename_i r hget
    split at h
    · cases h
      exact Or.inl rfl
    · split at h
      · cases h
        exact Or.inl rfl
      · rename_i date hdate
        split at h
        · cases h
        · cases h
        · rename_i dstFile identical tr hloop
          split at h
          · rename_i hident
            cases h
            refine Or.inr (Or.inl ⟨date, dstFile, tr, ?_, rfl⟩)
            rw [show identical = true from hident] at hloop
            exact hloop
          · rename_i hident
            have hidf : identical = false := by
              revert hident
              cases identical <;> simp
            split at h
            · cases h
            · rename_i fs' hfs
              cases h
              refine Or.inr (Or.inr ⟨date, dstFile, tr, fs', ?_, ?_, rfl⟩)
              · rw [hidf] at hloop
                exact hloop
              · by_cases htest : cfg.test = true
                · rw [if_pos htest] at hfs
                  cases hfs
                  exact Or.inl ⟨htest, rfl⟩
                · have htf : cfg.test = false := by
                    revert htest
                    cases cfg.test <;> simp
                  rw [if_neg (by simp [htf])] at hfs
                  refine Or.inr ⟨htf, ?_⟩
                  cases hread : st.fs.read data.sourceFile with
                  | none => rw [hread] at hfs; cases hfs
                  | some c =>
                    rw [hread] at hfs
                    cases hfs
                    exact ⟨c, rfl, rfl⟩

theorem occupiedPath_false_isfile {fs : FS} {dict : List (String × String)}
    {test : Bool} {p : String} (h : occupiedPath fs dict test p = false) :
    fs.isfile p = false := by
  unfold occupiedPath at h
  cases hf : fs.isfile p
  · rfl
  · rw [hf] at h
    simp at h

theorem occupiedPath_false_dict {fs : FS} {dict : List (String × String)}
    {p : String} (h : occupiedPath fs dict true p = false) :
    (dict.lookup p).isSome = false := by
  unfold occupiedPath at h
  cases hf : (dict.lookup p).isSome
  · rfl
  · rw [hf] at h
    simp at h

theorem lookup_cons_isSome {β : Type} (k : String) (v : β) (l : List (String × β))
    (p : String) (h : (List.lookup p l).isSome = true) :
    (List.lookup p ((k, v) :: l)).isSome = true := by
  rw [List.lookup_cons]
  cases hb : p == k
  · simpa using h
  · simp

/-! ## Lemmas: counters partition the records -/

theorem processRecord_counts (cfg : SortConfig) (env : SortEnv) (st : SortState)
    (data : MediaData) (st' : SortState)
    (h : processRecord cfg env st data = .ok st') :
    st'.numIgnored + st'.numDuplicates + st'.numProcessed
      = st.numIgnored + st.numDuplicates + st.numProcessed + 1 ∧
    st'.processed.length + st.numProcessed = st.processed.length + st'.numProcessed := by
  rcases processRecord_ok_cases cfg env st data st' h with
    h1 | ⟨d, f, t, _, h2⟩ | ⟨d, f, t, fs', _, _, h3⟩
  · subst h1
    exact ⟨by dsimp only; omega, rfl⟩
  · subst h2
    exact ⟨by dsimp only; omega, rfl⟩
  · subst h3
    refine ⟨by dsimp only; omega, ?_⟩
    dsimp only
    simp only [List.length_append, List.length_cons, List.length_nil]
    omega

theorem runRecords_counts (cfg : SortConfig) (env : SortEnv) :
    ∀ ms (st st' : SortState), runRecords cfg env st ms = .ok st' →
      st'.numIgnored + st'.numDuplicates + st'.numProcessed
        = st.numIgnored + st.numDuplicates + st.numProcessed + ms.length ∧
      st'.processed.length + st.numProcessed = st.processed.length + st'.numProcessed := by
  intro ms
  induction ms with
  | nil =>
    intro st st' h
    cases h
    simp
  | cons rec rest ih =>
    intro st st' h
    simp only [runRecords] at h
    cases hp : processRecord cfg env st rec with
    | error e =>
      rw [hp] at h
      cases h
    | ok st1 =>
      rw [hp] at h
      obtain ⟨c1, c2⟩ := processRecord_counts cfg env st rec st1 hp
      obtain ⟨c3, c4⟩ := ih st1 st' h
      constructor
      · simp only [List.length_cons]
        omega
      · omega

/-! ## Lemmas: processed destinations are pairwise distinct -/

/-- Dry-run invariant: every processed destination is claimed in the
ledger, and the destinations are pairwise distinct. -/
def TestInv (st : SortState) : Prop :=
  (st.processed.map Prod.snd).Nodup ∧
  ∀ d ∈ st.processed.map Prod.snd, (st.dict.lookup d).isSome = true

theorem processRecord_testInv (cfg : SortConfig) (env : SortEnv) (st : SortState)
    (data : MediaData) (st' : SortState) (htest : cfg.test = true)
    (h : processRecord cfg env st data = .ok st') (hinv : TestInv st) :
    TestInv st' := by
  obtain ⟨hnd, hmem⟩ := hinv
  rcases processRecord_ok_cases cfg env st data st' h with
    h1 | ⟨d, f, t, hl, h2⟩ | ⟨d, f, t, fs', hl, hfs, h3⟩
  · subst h1
    exact ⟨hnd, hmem⟩
  · subst h2
    refine ⟨hnd, ?_⟩
    intro p hp
    simp only [htest, if_true]
    exact lookup_cons_isSome _ _ _ _ (hmem p hp)
  · subst h3
    have hfree := collisionLoop_free _ _ _ _ _ _ _ _ _ _ _ _ hl
    have hfdict : (st.dict.lookup f).isSome = false :=
      occupiedPath_false_dict (htest ▸ hfree)
    have hfnot : f ∉ st.processed.map Prod.snd := by
      intro hf
      rw [hmem f hf] at hfdict
      cases hfdict
    constructor
    · simp only [List.map_append, List.map_cons, List.map_nil]
      rw [List.nodup_append]
      refine ⟨hnd, List.nodup_singleton f, ?_⟩
      intro a ha hb
      rw [List.mem_singleton.mp hb] at ha
      exact hfnot ha
    · intro p hp
      simp only [htest, if_true]
      simp only [List.map_append, List.map_cons, List.map_nil, List.mem_append,
        List.mem_singleton] at hp
      rcases hp with hp | hp
      · exact lookup_cons_isSome _ _ _ _ (hmem p hp)
      · subst hp
        rw [List.lookup_cons]
        simp

/-- Real-mode invariant: processed destinations exist on disk and are
pairwise distinct, the remaining sources exist on disk, are pairwise
distinct, and never coincide with a processed destination. -/
def RealInv (st : SortState) (ms : List MediaData) : Prop :=
  (st.processed.map Prod.snd).Nodup ∧
  (∀ d ∈ st.processed.map Prod.snd, st.fs.isfile d = true) ∧
  (∀ r ∈ ms, st.fs.isfile r.sourceFile = true) ∧
  (ms.map MediaData.sourceFile).Nodup ∧
  (∀ d ∈ st.processed.map Prod.snd, ∀ r ∈ ms, d ≠ r.sourceFile)

theorem processRecord_realInv (cfg : SortConfig) (env : SortEnv) (st : SortState)
    (data : MediaData) (st' : SortState) (rest : List MediaData)
    (htest : cfg.test = false)
    (h : processRecord cfg env st data = .ok st')
    (hinv : RealInv st (data :: rest)) : RealInv st' rest := by
  obtain ⟨hnd, hdst, hsrc, hsnd, hdisj⟩ := hinv
  have hheadmem : data ∈ data :: rest := List.mem_cons_self data rest
  have hsrcnot : ∀ r ∈ rest, r.sourceFile ≠ data.sourceFile := by
    intro r hr he
    have := List.nodup_cons.mp hsnd
    exact this.1 (he ▸ List.mem_map_of_mem MediaData.sourceFile hr)
  rcases processRecord_ok_cases cfg env st data st' h with
    h1 | ⟨d, f, t, hl, h2⟩ | ⟨d, f, t, fs', hl, hfs, h3⟩
  · subst h1
    refine ⟨hnd, hdst, ?_, (List.nodup_cons.mp hsnd).2, ?_⟩
    · intro r hr
      exact hsrc r (List.mem_cons_of_mem _ hr)
    · intro d hd r hr
      exact hdisj d hd r (List.mem_cons_of_mem _ hr)
  · subst h2
    simp only [htest]
    refine ⟨hnd, ?_, ?_, (List.nodup_cons.mp hsnd).2, ?_⟩
    · intro p hp
      by_cases hcopy : cfg.copy = true
      · simpa [hcopy] using hdst p hp
      · have hc : cfg.copy = false := by
          revert hcopy
          cases cfg.copy <;> simp
        simp only [hc, Bool.not_false, Bool.and_self, if_true]
        rw [FS.isfile_remove]
        rw [if_neg (hdisj p hp data hheadmem)]
        exact hdst p hp
    · intro r hr
      by_cases hcopy : cfg.copy = true
      · simpa [hcopy] using hsrc r (List.mem_cons_of_mem _ hr)
      · have hc : cfg.copy = false := by
          revert hcopy
          cases cfg.copy <;> simp
        simp only [hc, Bool.not_false, Bool.and_self, if_true]
        rw [FS.isfile_remove]
        rw [if_neg (hsrcnot r hr)]
        exact hsrc r (List.mem_cons_of_mem _ hr)
    · intro p hp r hr
      exact hdisj p hp r (List.mem_cons_of_mem _ hr)
  · rcases hfs with ⟨hct, _⟩ | ⟨_, c, hread, hfs'⟩
    · rw [hct] at htest
      cases htest
    · subst h3
      subst hfs'
      have hfree := collisionLoop_free _ _ _ _ _ _ _ _ _ _ _ _ hl
      have hffile : st.fs.isfile f = false := occupiedPath_false_isfile hfree
      have hfnot : f ∉ st.processed.map Prod.snd := by
        intro hf
        rw [hdst f hf] at hffile
        cases hffile
      have hwrite_isfile : ∀ q, q ≠ data.sourceFile → q ≠ f →
          ((if cfg.copy then st.fs else st.fs.remove data.sourceFile).write f c).isfile q
            = st.fs.isfile q := by
        intro q hq1 hq2
        rw [FS.isfile_write, if_neg hq2]
        by_cases hcopy : cfg.copy = true
        · simp [hcopy]
        · have hc : cfg.copy = false := by
            revert hcopy
            cases cfg.copy <;> simp
          simp only [hc, Bool.false_eq_true, if_false]
          rw [FS.isfile_remove, if_neg hq1]
    -- assemble the invariant for the processed case
      refine ⟨?_, ?_, ?_, (List.nodup_cons.mp hsnd).2, ?_⟩
      · simp only [List.map_append, List.map_cons, List.map_nil]
        rw [List.nodup_append]
        refine ⟨hnd, List.nodup_singleton f, ?_⟩
        intro a ha hb
        rw [List.mem_singleton.mp hb] at ha
        exact hfnot ha
      · intro p hp
        simp only [List.map_append, List.map_cons, List.map_nil, List.mem_append,
          List.mem_singleton] at hp
        rcases hp with hp | hp
        · rw [hwrite_isfile p (hdisj p hp data hheadmem) (by
            intro he
            rw [he] at hp
            exact hfnot hp)]
          exact hdst p hp
        · subst hp
          rw [FS.isfile_write, if_pos rfl]
      · intro r hr
        have hrf : r.sourceFile ≠ f := by
          intro he
          have := hsrc r (List.mem_cons_of_mem _ hr)
          rw [he, hffile] at this
          cases this
        rw [hwrite_isfile r.sourceFile (hsrcnot r hr) hrf]
        exact hsrc r (List.mem_cons_of_mem _ hr)
      · intro p hp r hr
        simp only [List.map_append, List.map_cons, List.map_nil, List.mem_append,
          List.mem_singleton] at hp
        rcases hp with hp | hp
        · exact hdisj p hp r (List.mem_cons_of_mem _ hr)
        · subst hp
          intro he
          have := hsrc r (List.mem_cons_of_mem _ hr)
          rw [← he, hffile] at this
          cases this

theorem runRecords_testInv (cfg : SortConfig) (env : SortEnv) (htest : cfg.test = true) :
    ∀ ms (st st' : SortState), TestInv st → runRecords cfg env st ms = .ok st' →
      TestInv st' := by
  intro ms
  induction ms with
  | nil =>
    intro st st' hinv h
    cases h
    exact hinv
  | cons rec rest ih =>
    intro st st' hinv h
    simp only [runRecords] at h
    cases hp : processRecord cfg env st rec with
    | error e =>
      rw [hp] at h
      cases h
    | ok st1 =>
      rw [hp] at h
      exact ih st1 st' (processRecord_testInv cfg env st rec st1 htest hp hinv) h

theorem runRecords_realInv (cfg : SortConfig) (env : SortEnv) (htest : cfg.test = false) :
    ∀ ms (st st' : SortState), RealInv st ms → runRecords cfg env st ms = .ok st' →
      (st'.processed.map Prod.snd).Nodup := by
  intro ms
  induction ms with
  | nil =>
    intro st st' hinv h
    cases h
    exact hinv.1
  | cons rec rest ih =>
    intro st st' hinv h
    simp only [runRecords] at h
    cases hp : processRecord cfg env st rec with
    | error e =>
      rw [hp] at h
      cases h
    | ok st1 =>
      rw [hp] at h
      exact ih st1 st' (processRecord_realInv cfg env st rec st1 rest htest hp hinv) h

/-! ## Lemmas: video date resolution -/

theorem get_date_gps_success (resolver : Resolver) (data : MediaData) (v : String)
    (d : Datetime) (off : Option Timedelta) (lat lng : Int) (g : Timedelta)
    (hv : data.tagDateVideo = some v)
    (hp : parse_date v = .ok (some d, off))
    (hla : data.gpsLatitude = some lat) (hlo : data.gpsLongitude = some lng)
    (hr : resolver lat lng d = some g) :
    get_date resolver data MEDIA_TYPE_VIDEO
      = .ok (some (addTd d g), some (TAG_DATE_VIDEO ++ (" in UTC " : String)
          ++ format_offset g ++ (" via GPS" : String))) := by
  simp +decide [get_date, hv, hp, hla, hlo, hr]

theorem get_date_gps_fallthrough (resolver : Resolver) (data : MediaData) (v : String)
    (d : Datetime) (off : Option Timedelta)
    (hv : data.tagDateVideo = some v)
    (hp : parse_date v = .ok (some d, off))
    (hgps : data.gpsLatitude = none ∨ data.gpsLongitude = none ∨
      ∀ lat lng, data.gpsLatitude = some lat → data.gpsLongitude = some lng →
        resolver lat lng d = none) :
    get_date resolver data MEDIA_TYPE_VIDEO = videoFallback data d := by
  cases hla : data.gpsLatitude with
  | none => simp +decide [get_date, hv, hp, hla]
  | some lat =>
    cases hlo : data.gpsLongitude with
    | none => simp +decide [get_date, hv, hp, hla, hlo]
    | some lng =>
      rcases hgps with hcon | hcon | hcon
      · rw [hla] at hcon
        cases hcon
      · rw [hlo] at hcon
        cases hcon
      · simp +decide [get_date, hv, hp, hla, hlo, hcon lat lng hla hlo]

theorem videoFallback_viaFile (data : MediaData) (d : Datetime) (fv : String)
    (df : Datetime) (off : Timedelta)
    (hf : data.tagDateFile = some fv)
    (hp : parse_date fv = .ok (some df, some off))
    (hin : (df.toSecs - off - d.toSecs).natAbs ≤ 3) :
    videoFallback data d
      = .ok (some (addTd d off), some (TAG_DATE_VIDEO ++ (" in UTC " : String)
          ++ format_offset off ++ (" via File" : String))) := by
  simp [videoFallback, hf, hp, hin]

theorem videoFallback_assumed (data : MediaData) (d : Datetime)
    (hno : data.tagDateFile = none ∨
      (∃ fv o, data.tagDateFile = some fv ∧ parse_date fv = .ok (none, o)) ∨
      (∃ fv df, data.tagDateFile = some fv ∧ parse_date fv = .ok (some df, none)) ∨
      (∃ fv df off, data.tagDateFile = some fv ∧ parse_date fv = .ok (some df, some off) ∧
        ¬((df.toSecs - off - d.toSecs).natAbs ≤ 3))) :
    videoFallback data d
      = .ok (some d, some (TAG_DATE_VIDEO ++ (" assumed in local time" : String))) := by
  rcases hno with hf | ⟨fv, o, hf, hp⟩ | ⟨fv, df, hf, hp⟩ | ⟨fv, df, off, hf, hp, hin⟩
  · simp [videoFallback, hf]
  · simp [videoFallback, hf, hp]
  · simp [videoFallback, hf, hp]
  · simp [videoFallback, hf, hp, hin]

/-- The assume-local provenance differs from every via-File provenance. -/
theorem assumed_ne_viaFile (off : Timedelta) :
    TAG_DATE_VIDEO ++ (" assumed in local time" : String)
      ≠ TAG_DATE_VIDEO ++ (" in UTC " : String) ++ format_offset off
          ++ (" via File" : String) := by
  intro h
  have hd := congrArg String.data h
  simp only [String.data_append, List.append_assoc] at hd
  have htl := List.append_cancel_left hd
  simp at htl

/-! ## Lemmas: the offset returned by parse_date -/

theorem parseOff_signed (t0 sgn r2 : List Char) (more : List (List Char))
    (ohs oms : List Char) (oh om : Int)
    (hsp : pySplitOn ':' r2 = [ohs, oms])
    (hoh : pyInt? ohs = some oh) (hom : pyInt? oms = some om) :
    parseOff (t0 :: sgn :: r2 :: more)
      = .ok (if sgn == ['-'] then -(oh * 3600 + om * 60) else oh * 3600 + om * 60) := by
  simp [parseOff, hsp, hoh, hom]

theorem parseOff_single (t0 : List Char) : parseOff [t0] = .ok 0 := rfl

/-- Whatever offset the time-and-offset parser computes is what
`parse_date` reports whenever it reports a timestamp at all. -/
theorem parse_date_offset_of_time (text : String) (e0 e1 : List Char)
    (rest : List (List Char)) (off : Timedelta) (dt : Datetime)
    (off? : Option Timedelta)
    (hsplit : pySplitWs text.data = e0 :: e1 :: rest)
    (hoff : parseOff (reSplitSigns e1) = .ok off)
    (hres : parse_date text = .ok (some dt, off?)) :
    off? = some off := by
  simp only [parse_date, hsplit] at hres
  split at hres
  · split at hres
    · split at hres
      · rename_i tpoM heqM
        split at hres
        · cases hres
        · rename_i tpo heq
          simp only [parseTimeOffset] at heq
          split at heq
          · cases heq
          · rename_i hms hhms
            rw [hoff] at heq
            cases heq
            split at hres
            · cases hres
            · split at hres
              · cases hres
              · cases hres
                rfl
      · cases hres
    · cases hres
  · cases hres

/-- Without a time token `parse_date` reports offset zero whenever it
reports a timestamp. -/
theorem parse_date_offset_notime (text : String) (e0 : List Char) (dt : Datetime)
    (off? : Option Timedelta)
    (hsplit : pySplitWs text.data = [e0])
    (hres : parse_date text = .ok (some dt, off?)) :
    off? = some 0 := by
  simp only [parse_date, hsplit] at hres
  split at hres
  · split at hres
    · split at hres
      · split at hres
        · cases hres
        · split at hres
          · cases hres
          · cases hres
            rfl
      · cases hres
    · cases hres
  · cases hres

/-! ## Concrete fixtures for witnesses and counterexamples -/

/-- Environment whose `strftime` always renders `2021/06` and whose GPS
resolver always fails. -/
def envConst : SortEnv :=
  { strftime := fun _ _ => "2021/06", resolver := fun _ _ _ => none }

/-- Move-mode photo configuration with the default templates. -/
def cfgMove : SortConfig :=
  { mediaType := MEDIA_TYPE_PHOTO, dstDir := "dst", copy := false, keep := false,
    test := false, subdirFormat := "%Y/%m", filenameFormat := none }

def cfgCopy : SortConfig := { cfgMove with copy := true }

def cfgTest : SortConfig := { cfgMove with test := true }

def photoDateStr : String := "2021:06:01 12:00:00"

def fileDateStr : String := "2021:06:01 21:00:03+09:00"

def noonJune : Datetime := ⟨2021, 6, 1, 12, 0, 0⟩

def nineJune : Datetime := ⟨2021, 6, 1, 21, 0, 0⟩

def srcS1 : String := "s1/photo.jpg"

def srcS2 : String := "s2/photo.jpg"

def srcS3 : String := "s3/photo.jpg"

def rec1 : MediaData :=
  { sourceFile := srcS1, tagDatePhoto := some photoDateStr, tagDateVideo := none,
    tagDateFile := none, gpsLatitude := none, gpsLongitude := none }

def rec2 : MediaData := { rec1 with sourceFile := srcS2 }

def rec3 : MediaData := { rec1 with sourceFile := srcS3 }

def fs3 : FS := ⟨[(srcS1, 1), (srcS2, 2), (srcS3, 3)]⟩

def dstP : String := "dst/2021/06/photo.jpg"

def dstP1 : String := "dst/2021/06/photo_1.jpg"

def dstP2 : String := "dst/2021/06/photo_2.jpg"

def rootP : String := "dst/2021/06/photo"

def extJpg : String := ".jpg"

/-- The final state of the three-way collision run. -/
def runSt3 : SortState :=
  (sortRun cfgMove envConst fs3 [rec1, rec2, rec3]).toOption.getD (initState fs3)

def srcX : String := "src/x.jpg"

def dstX : String := "dst/2021/06/x.jpg"

def recX : MediaData := { rec1 with sourceFile := srcX }

def fsC4 : FS := ⟨[(srcX, 9), (dstX, 9)]⟩

def srcA : String := "a/x.jpg"

def srcB : String := "b/x.jpg"

def recA : MediaData := { rec1 with sourceFile := srcA }

def recB : MediaData := { rec1 with sourceFile := srcB }

def fsAB : FS := ⟨[(srcA, 7), (srcB, 7)]⟩

/-- Ledger state after the first record of the duplicate dry run. -/
def stC6a : SortState :=
  (sortRun cfgTest envConst fsAB [recA]).toOption.getD (initState fsAB)

/-- Ledger state after both records of the duplicate dry run. -/
def stC6b : SortState :=
  (sortRun cfgTest envConst fsAB [recA, recB]).toOption.getD (initState fsAB)

def badPath : String := "@eaDir/thumb.jpg"

def badDateStr : String := "ABCD:01:01"

/-- A record with an ignorable source path whose date tag makes `int()`
raise inside `parse_date`. -/
def badRec : MediaData :=
  { sourceFile := badPath, tagDatePhoto := some badDateStr, tagDateVideo := none,
    tagDateFile := none, gpsLatitude := none, gpsLongitude := none }

def fsB : FS := ⟨[(badPath, 5)]⟩

def trashPath : String := ".trash/a.jpg"

def trashRec : MediaData := { rec1 with sourceFile := trashPath }

def fsT : FS := ⟨[(trashPath, 4)]⟩

/-! ## Claims -/

/-- Claim C10: every record of a successful batch run increments exactly
one of the counters ignored, duplicates, processed, so their sum equals
the number of input records, and the processed pair list has exactly
`numProcessed` entries. -/
theorem claim_C10 (cfg : SortConfig) (env : SortEnv) (fs0 : FS)
    (metadata : List MediaData) (st : SortState)
    (h : sortRun cfg env fs0 metadata = .ok st) :
    st.numIgnored + st.numDuplicates + st.numProcessed = metadata.length ∧
    st.processed.length = st.numProcessed := by
  obtain ⟨c1, c2⟩ := runRecords_counts cfg env metadata (initState fs0) st h
  constructor
  · simpa [initState] using c1
  · simpa [initState] using c2

/-- Witness for C10 at the three-record collision run. -/
theorem claim_C10_witness :
    runSt3.numIgnored + runSt3.numDuplicates + runSt3.numProcessed
        = [rec1, rec2, rec3].length ∧
    runSt3.processed.length = runSt3.numProcessed :=
  claim_C10 cfgMove envConst fs3 [rec1, rec2, rec3] runSt3 rfl

/-- Claim C3: the collision loop uses the strictly increasing suffixes
`_1, _2, ...` and never reuses one within a chain; with the fuel the loop
is given it always terminates (never exhausts); no two processed files of
one run are assigned the same final destination (in real mode provided
the sources exist on disk and are pairwise distinct, which the metadata
scan guarantees); and three distinct non-identical files colliding on
`photo.jpg` receive `photo.jpg`, `photo_1.jpg`, `photo_2.jpg`. -/
theorem claim_C3 :
    (∀ (fs : FS) (dict : List (String × String)) (keep test : Bool)
        (src root ext : String) (fuel : Nat) (d0 d : String) (b : Bool) (tr : List Nat),
      collisionLoop fs dict keep test src root ext fuel d0 1 = .ok (some (d, b, tr)) →
      tr = List.range' 1 tr.length ∧ tr.Nodup ∧ List.Pairwise (· < ·) tr) ∧
    (∀ (fs : FS) (dict : List (String × String)) (keep test : Bool)
        (src root ext d0 : String),
      d0.data.length = root.data.length + ext.data.length →
      collisionLoop fs dict keep test src root ext
        (fs.files.length + dict.length + 1) d0 1 ≠ .ok none) ∧
    (∀ (cfg : SortConfig) (env : SortEnv) (fs0 : FS) (metadata : List MediaData)
        (st : SortState),
      sortRun cfg env fs0 metadata = .ok st →
      (cfg.test = true ∨
        ((∀ r ∈ metadata, fs0.isfile r.sourceFile = true) ∧
          (metadata.map MediaData.sourceFile).Nodup)) →
      (st.processed.map Prod.snd).Nodup) ∧
    (sortRun cfgMove envConst fs3 [rec1, rec2, rec3]).map SortState.processed
      = .ok [(srcS1, dstP), (srcS2, dstP1), (srcS3, dstP2)] := by
  refine ⟨?_, ?_, ?_, rfl⟩
  · intro fs dict keep test src root ext fuel d0 d b tr h
    have htr := collisionLoop_trace fs dict keep test src root ext fuel d0 1 d b tr h
    refine ⟨htr, ?_, ?_⟩
    · rw [htr]
      exact List.nodup_range' 1 tr.length
    · rw [htr]
      exact List.pairwise_lt_range' 1 tr.length
  · intro fs dict keep test src root ext d0 hlen
    exact collisionLoop_fuel_sufficient fs dict keep test src root ext d0 hlen
  · intro cfg env fs0 metadata st h hcond
    by_cases htest : cfg.test = true
    · exact (runRecords_testInv cfg env htest metadata (initState fs0) st
        ⟨List.nodup_nil, by simp [initState]⟩ h).1
    · have htf : cfg.test = false := by
        revert htest
        cases cfg.test <;> simp
      rcases hcond with hc | ⟨hsrcs, hnd⟩
      · exact absurd hc htest
      · exact runRecords_realInv cfg env htf metadata (initState fs0) st
          ⟨List.nodup_nil, by simp [initState], by simpa [initState] using hsrcs,
            hnd, by simp [initState]⟩ h

/-- Witness for C3: termination at the concrete collision scenario and
distinct destinations of its processed files. -/
theorem claim_C3_witness :
    collisionLoop fs3 [] false false srcS1 rootP extJpg
        (fs3.files.length + List.length ([] : List (String × String)) + 1) dstP 1
      ≠ .ok none ∧
    (runSt3.processed.map Prod.snd).Nodup :=
  ⟨claim_C3.2.1 fs3 [] false false srcS1 rootP extJpg dstP (by decide),
   claim_C3.2.2.1 cfgMove envConst fs3 [rec1, rec2, rec3] runSt3 rfl
     (Or.inr ⟨by decide, by decide⟩)⟩

/-- Claim C4: a byte-identical occupant at the candidate destination with
duplicate-removal enabled stops the loop with no rename and counts a
duplicate; in copy mode the source is left untouched, in move mode the
source file is deleted. -/
theorem claim_C4 (cfg : SortConfig) (env : SortEnv) (st : SortState)
    (data : MediaData) (date : Datetime) (info : Option String) (c : Nat)
    (hkeep : cfg.keep = false) (htest : cfg.test = false)
    (hig : ignorablePath data.sourceFile = false)
    (hgd : get_date env.resolver data cfg.mediaType = .ok (some date, info))
    (hsrc : st.fs.read data.sourceFile = some c)
    (hocc : st.fs.read (candidateDst env cfg data.sourceFile date) = some c) :
    collisionLoop st.fs st.dict cfg.keep cfg.test data.sourceFile
        (splitext (candidateDst env cfg data.sourceFile date)).1
        (splitext (candidateDst env cfg data.sourceFile date)).2
        (st.fs.files.length + st.dict.length + 1)
        (candidateDst env cfg data.sourceFile date) 1
      = .ok (some (candidateDst env cfg data.sourceFile date, true, [])) ∧
    processRecord cfg env st data
      = .ok { st with
          fs := if cfg.copy then st.fs else st.fs.remove data.sourceFile,
          numDuplicates := st.numDuplicates + 1 } := by
  have hiso : st.fs.isfile (candidateDst env cfg data.sourceFile date) = true := by
    unfold FS.isfile
    rw [hocc]
    rfl
  have hloop : collisionLoop st.fs st.dict cfg.keep cfg.test data.sourceFile
      (splitext (candidateDst env cfg data.sourceFile date)).1
      (splitext (candidateDst env cfg data.sourceFile date)).2
      (st.fs.files.length + st.dict.length + 1)
      (candidateDst env cfg data.sourceFile date) 1
      = .ok (some (candidateDst env cfg data.sourceFile date, true, [])) := by
    simp only [collisionLoop]
    rw [hiso]
    simp only [Bool.true_or, if_true, hkeep, Bool.not_false]
    rw [hsrc, hocc]
    simp
  refine ⟨hloop, ?_⟩
  simp only [processRecord, hgd, hig, Bool.false_eq_true, if_false]
  rw [hloop]
  simp only [htest, Bool.false_eq_true, if_false, Bool.not_false, Bool.true_and,
    if_true]
  by_cases hcopy : cfg.copy = true
  · simp [hcopy]
  · have hc : cfg.copy = false := by
      revert hcopy
      cases cfg.copy <;> simp
    simp [hc]

/-- Witness for C4 at the concrete duplicate scenario in move mode. -/
theorem claim_C4_witness :
    processRecord cfgMove envConst (initState fsC4) recX
      = .ok { initState fsC4 with
          fs := if cfgMove.copy then (initState fsC4).fs
            else (initState fsC4).fs.remove recX.sourceFile,
          numDuplicates := (initState fsC4).numDuplicates + 1 } :=
  (claim_C4 cfgMove envConst (initState fsC4) recX noonJune
    (some (TAG_DATE_PHOTO ++ (" defined in local time" : String))) 9
    rfl rfl rfl rfl rfl rfl).2

/-- Counterexample to claim C9: this record's path is ignorable, yet the
run passes it to date resolution first (line 250 precedes the filters at
lines 262-276), where the malformed tag raises and aborts the whole run
instead of the record being counted as ignored. -/
theorem claim_C9_counterexample :
    ignorablePath badPath = true ∧
    sortRun cfgMove envConst fsB [badRec] = .error () :=
  ⟨rfl, rfl⟩

/-- Claim C9 as amended: a record whose source path starts with `.` (other
than `./`), `@` or `#`, or contains a path segment starting with one of
them, is counted as ignored and never reaches placement — but only after
`get_date` has already been invoked on the record (the resolution result
is discarded; if resolution raises, the run aborts instead). -/
theorem claim_C9 (cfg : SortConfig) (env : SortEnv) (st : SortState)
    (data : MediaData) (x : Option Datetime × Option String)
    (hig : ignorablePath data.sourceFile = true)
    (hgd : get_date env.resolver data cfg.mediaType = .ok x) :
    processRecord cfg env st data = .ok { st with numIgnored := st.numIgnored + 1 } := by
  simp [processRecord, hgd, hig]

/-- Witness for the amended C9 at a `.trash` path with a valid date. -/
theorem claim_C9_witness :
    processRecord cfgMove envConst (initState fsT) trashRec
      = .ok { initState fsT with numIgnored := (initState fsT).numIgnored + 1 } :=
  claim_C9 cfgMove envConst (initState fsT) trashRec
    (some noonJune, some (TAG_DATE_PHOTO ++ (" defined in local time" : String)))
    rfl rfl

/-- Counterexample to claim C6: in a dry run over two byte-identical
sources mapping to the same destination, the ledger key is claimed by the
first source after record one and reassigned to the second source by
record two of the same run (the two-record run extends the one-record
run's state). -/
theorem claim_C6_counterexample :
    sortRun cfgTest envConst fsAB [recA, recB]
      = runRecords cfgTest envConst stC6a [recB] ∧
    stC6a.dict.lookup dstX = some srcA ∧
    stC6b.dict.lookup dstX = some srcB ∧
    srcA ≠ srcB :=
  ⟨rfl, rfl, rfl, by decide⟩

/-- Claim C6 as amended: in a dry run, a claimed ledger key is never
reassigned to a different source file, except that a source whose content
is byte-identical to the occupant the loop compared against (a duplicate,
with duplicate-removal enabled) may overwrite the claim. -/
theorem claim_C6 (cfg : SortConfig) (env : SortEnv) (st : SortState)
    (data : MediaData) (st' : SortState) (P s : String)
    (htest : cfg.test = true)
    (h : processRecord cfg env st data = .ok st')
    (hbefore : st.dict.lookup P = some s) :
    st'.dict.lookup P = some s ∨
    (st'.dict.lookup P = some data.sourceFile ∧
      st'.numDuplicates = st.numDuplicates + 1 ∧
      ∃ c, st.fs.read data.sourceFile = some c ∧
        st.fs.read (comparePath st.fs st.dict P) = some c) := by
  rcases processRecord_ok_cases cfg env st data st' h with
    h1 | ⟨d, f, t, hl, h2⟩ | ⟨d, f, t, fs', hl, hfs, h3⟩
  · subst h1
    exact Or.inl hbefore
  · subst h2
    simp only [htest, if_true]
    by_cases hPf : P = f
    · subst hPf
      obtain ⟨hkeep, hoccp, cc, hc1, hc2⟩ :=
        collisionLoop_dup _ _ _ _ _ _ _ _ _ _ _ _ hl
      refine Or.inr ⟨?_, by dsimp only, cc, hc1, hc2⟩
      rw [List.lookup_cons]
      simp
    · left
      rw [List.lookup_cons]
      rw [beq_eq_false_iff_ne.mpr hPf]
      exact hbefore
  · subst h3
    simp only [htest, if_true]
    by_cases hPf : P = f
    · subst hPf
      have hfree := collisionLoop_free _ _ _ _ _ _ _ _ _ _ _ _ hl
      have := occupiedPath_false_dict (htest ▸ hfree)
      rw [hbefore] at this
      cases this
    · left
      rw [List.lookup_cons]
      rw [beq_eq_false_iff_ne.mpr hPf]
      exact hbefore

/-- Witness for the amended C6 at the concrete duplicate dry run. -/
theorem claim_C6_witness :
    stC6b.dict.lookup dstX = some srcA ∨
    (stC6b.dict.lookup dstX = some recB.sourceFile ∧
      stC6b.numDuplicates = stC6a.numDuplicates + 1 ∧
      ∃ c, stC6a.fs.read recB.sourceFile = some c ∧
        stC6a.fs.read (comparePath stC6a.fs stC6a.dict dstX) = some c) :=
  claim_C6 cfgTest envConst stC6a recB stC6b dstX srcA rfl rfl rfl

def c5str : String := "2020:01:15 10:30:00"

def c5sig : String := "2020:01:15 10:30:00+02:00"

def c5date : Datetime := ⟨2020, 1, 15, 10, 30, 0⟩

/-- Counterexample to claim C5: with no sign or Z marker present the
parser reports the offset as `timedelta(0)` (line 97's default survives to
line 135), not as absent — the offset slot is `none` only together with a
`none` timestamp. -/
theorem claim_C5_counterexample :
    parse_date c5str = .ok (some c5date, some 0) ∧
    (parse_date c5str).toOption.map Prod.snd ≠ some none :=
  ⟨rfl, by decide⟩

/-- Claim C5 as amended: a captured `+`/`-` sign followed by an `HH:MM`
remainder yields a signed offset whose sign is negated for `-`; absence of
a sign or Z marker yields a zero offset (`timedelta(0)`), not an absent
one. -/
theorem claim_C5 :
    (∀ (text : String) (e0 e1 t0 sgn r2 : List Char)
        (rest more : List (List Char)) (ohs oms : List Char) (oh om : Int)
        (dt : Datetime) (off? : Option Timedelta),
      pySplitWs text.data = e0 :: e1 :: rest →
      reSplitSigns e1 = t0 :: sgn :: r2 :: more →
      (sgn = ['+'] ∨ sgn = ['-']) →
      pySplitOn ':' r2 = [ohs, oms] →
      pyInt? ohs = some oh → pyInt? oms = some om →
      parse_date text = .ok (some dt, off?) →
      off? = some (if sgn = ['-'] then -(oh * 3600 + om * 60)
        else oh * 3600 + om * 60)) ∧
    (∀ (text : String) (e0 e1 t0 : List Char) (rest : List (List Char))
        (dt : Datetime) (off? : Option Timedelta),
      pySplitWs text.data = e0 :: e1 :: rest →
      reSplitSigns e1 = [t0] →
      parse_date text = .ok (some dt, off?) →
      off? = some 0) ∧
    (∀ (text : String) (e0 : List Char) (dt : Datetime) (off? : Option Timedelta),
      pySplitWs text.data = [e0] →
      parse_date text = .ok (some dt, off?) →
      off? = some 0) := by
  refine ⟨?_, ?_, ?_⟩
  · intro text e0 e1 t0 sgn r2 rest more ohs oms oh om dt off? hsplit hre hsgn hsp
      hoh hom hres
    have hoff : parseOff (reSplitSigns e1)
        = .ok (if sgn == ['-'] then -(oh * 3600 + om * 60) else oh * 3600 + om * 60) := by
      rw [hre]
      exact parseOff_signed t0 sgn r2 more ohs oms oh om hsp hoh hom
    have := parse_date_offset_of_time text e0 e1 rest _ dt off? hsplit hoff hres
    rw [this]
    by_cases hneg : sgn = ['-']
    · simp [hneg]
    · simp [hneg, beq_eq_false_iff_ne.mpr hneg]
  · intro text e0 e1 t0 rest dt off? hsplit hre hres
    have hoff : parseOff (reSplitSigns e1) = .ok 0 := by
      rw [hre]
      exact parseOff_single t0
    exact parse_date_offset_of_time text e0 e1 rest 0 dt off? hsplit hoff hres
  · intro text e0 dt off? hsplit hres
    exact parse_date_offset_notime text e0 dt off? hsplit hres

/-- Witness for the amended C5 at `+02:00` and at the marker-free input. -/
theorem claim_C5_witness :
    (some (7200 : Timedelta) : Option Timedelta)
        = some (if (['+'] : List Char) = ['-'] then -((2 : Int) * 3600 + 0 * 60)
            else (2 : Int) * 3600 + 0 * 60) ∧
    (some (0 : Timedelta) : Option Timedelta) = some 0 :=
  ⟨claim_C5.1 c5sig ['2', '0', '2', '0', ':', '0', '1', ':', '1', '5']
      ("10:30:00+02:00" : String).data ("10:30:00" : String).data ['+']
      ("02:00" : String).data [] [] ("02" : String).data ("00" : String).data
      2 0 c5date (some 7200) rfl rfl (Or.inl rfl) rfl rfl rfl rfl,
   claim_C5.2.1 c5str ['2', '0', '2', '0', ':', '0', '1', ':', '1', '5']
      ("10:30:00" : String).data ("10:30:00" : String).data [] c5date (some 0)
      rfl rfl rfl⟩

def c7a : String := "0000:01:01"

def c7b : String := "2020:13:40"

/-- Claim C7: the parser returns the explicit no-timestamp result rather
than raising when the date token does not have exactly three fields, the
year field is `0000` (string comparison), a field contains a decimal
point, the calendar values are invalid, or the date predates 1900 (the
`strftime` round-trip guard); concretely `0000:01:01` and `2020:13:40`
yield no timestamp. -/
theorem claim_C7 :
    (∀ text : String, pySplitWs text.data = [] → parse_date text = .ok (none, none)) ∧
    (∀ (text : String) (e0 : List Char) (es : List (List Char)),
      pySplitWs text.data = e0 :: es → (pySplitOn ':' e0).length ≠ 3 →
      parse_date text = .ok (none, none)) ∧
    (∀ (text : String) (e0 : List Char) (es : List (List Char)) (ms ds : List Char),
      pySplitWs text.data = e0 :: es →
      pySplitOn ':' e0 = [['0', '0', '0', '0'], ms, ds] →
      parse_date text = .ok (none, none)) ∧
    (∀ (text : String) (e0 : List Char) (es : List (List Char)) (ys ms ds : List Char),
      pySplitWs text.data = e0 :: es → pySplitOn ':' e0 = [ys, ms, ds] →
      (ys ++ ms ++ ds).contains '.' = true →
      parse_date text = .ok (none, none)) ∧
    (∀ (text : String) (e0 : List Char) (es : List (List Char)) (ys ms ds : List Char)
        (y mo d : Int) (tpo : Int × Int × Int × Timedelta),
      pySplitWs text.data = e0 :: es → pySplitOn ':' e0 = [ys, ms, ds] →
      pyInt? ys = some y → pyInt? ms = some mo → pyInt? ds = some d →
      ((es = [] ∧ tpo = (12, 0, 0, 0)) ∨
        (∃ e1 r, es = e1 :: r ∧ parseTimeOffset e1 = .ok tpo)) →
      mkDatetime? y mo d tpo.1 tpo.2.1 tpo.2.2.1 = none →
      parse_date text = .ok (none, none)) ∧
    (∀ (text : String) (e0 : List Char) (es : List (List Char)) (ys ms ds : List Char)
        (y mo d : Int) (tpo : Int × Int × Int × Timedelta) (dt : Datetime),
      pySplitWs text.data = e0 :: es → pySplitOn ':' e0 = [ys, ms, ds] →
      pyInt? ys = some y → pyInt? ms = some mo → pyInt? ds = some d →
      ((es = [] ∧ tpo = (12, 0, 0, 0)) ∨
        (∃ e1 r, es = e1 :: r ∧ parseTimeOffset e1 = .ok tpo)) →
      mkDatetime? y mo d tpo.1 tpo.2.1 tpo.2.2.1 = some dt → dt.year < 1900 →
      parse_date text = .ok (none, none)) ∧
    (parse_date c7a = .ok (none, none) ∧ parse_date c7b = .ok (none, none)) := by
  refine ⟨?_, ?_, ?_, ?_, ?_, ?_, rfl, rfl⟩
  · intro text hsplit
    simp [parse_date, hsplit]
  · intro text e0 es hsplit hlen
    simp only [parse_date, hsplit]
    split
    · rename_i heq
      rw [heq] at hlen
      simp at hlen
    · rfl
  · intro text e0 es ms ds hsplit hzeros
    simp only [parse_date, hsplit]
    split
    · rename_i ys' ms' ds' heq
      rw [hzeros] at heq
      cases heq
      have hgate : (pyStrGt ['0', '0', '0', '0'] ['0', '0', '0', '0']
          && !((['0', '0', '0', '0'] ++ ms ++ ds).contains '.')) = false := by
        rw [show pyStrGt ['0', '0', '0', '0'] ['0', '0', '0', '0'] = false from rfl]
        rfl
      rw [hgate]
      exact if_neg (by simp)
    · rfl
  · intro text e0 es ys ms ds hsplit hsp hdot
    simp only [parse_date, hsplit]
    split
    · rename_i ys' ms' ds' heq
      rw [hsp] at heq
      cases heq
      have hgate : (pyStrGt ys ['0', '0', '0', '0']
          && !((ys ++ ms ++ ds).contains '.')) = false := by
        rw [hdot]
        simp
      rw [hgate]
      exact if_neg (by simp)
    · rfl
  · intro text e0 es ys ms ds y mo d tpo hsplit hsp hy hmo hd htpo hmk
    simp only [parse_date, hsplit]
    split
    · rename_i ys' ms' ds' heq
      rw [hsp] at heq
      cases heq
      split
      · simp only [hy, hmo, hd]
        rcases htpo with ⟨hes, htv⟩ | ⟨e1, r, hes, hpt⟩
        · subst hes
          subst htv
          dsimp only at hmk
          simp [hmk]
        · subst hes
          simp [hpt, hmk]
      · rfl
    · rename_i hne
      exact absurd hsp (hne ys ms ds)
  · intro text e0 es ys ms ds y mo d tpo dt hsplit hsp hy hmo hd htpo hmk hyr
    simp only [parse_date, hsplit]
    split
    · rename_i ys' ms' ds' heq
      rw [hsp] at heq
      cases heq
      split
      · simp only [hy, hmo, hd]
        rcases htpo with ⟨hes, htv⟩ | ⟨e1, r, hes, hpt⟩
        · subst hes
          subst htv
          dsimp only at hmk
          simp [hmk, hyr]
        · subst hes
          simp [hpt, hmk, hyr]
      · rfl
    · rename_i hne
      exact absurd hsp (hne ys ms ds)

/-- Witness for C7 applying the four-field and bad-month conditions. -/
theorem claim_C7_witness :
    parse_date ("2020:01" : String) = .ok (none, none) ∧
    parse_date ("1899:06:01 10:00:00" : String) = .ok (none, none) :=
  ⟨claim_C7.2.1 ("2020:01" : String)
      ['2', '0', '2', '0', ':', '0', '1'] [] rfl (by decide),
   claim_C7.2.2.2.2.2.1 ("1899:06:01 10:00:00" : String)
      ['1', '8', '9', '9', ':', '0', '6', ':', '0', '1']
      [['1', '0', ':', '0', '0', ':', '0', '0']]
      ['1', '8', '9', '9'] ['0', '6'] ['0', '1'] 1899 6 1 (10, 0, 0, 0)
      ⟨1899, 6, 1, 10, 0, 0⟩ rfl rfl rfl rfl rfl
      (Or.inr ⟨['1', '0', ':', '0', '0', ':', '0', '0'], [], rfl, rfl⟩)
      rfl (by decide)⟩

def videoPath : String := "v.mp4"

def gpsVideoRec : MediaData :=
  { sourceFile := videoPath, tagDatePhoto := none,
    tagDateVideo := some photoDateStr, tagDateFile := none,
    gpsLatitude := some 35, gpsLongitude := some 139 }

def resolver9 : Resolver := fun _ _ _ => some 32400

def provGPS : String :=
  TAG_DATE_VIDEO ++ (" in UTC " : String) ++ format_offset 32400 ++ (" via GPS" : String)

def sGPS : String := "GPS"

def s0900 : String := "09:00"

def sPlus09 : String := "+ 09:00"

/-- Claim C1: video date resolution tries GPS first (both coordinate tags
present and the resolver succeeding), then the file-date corroboration,
then the assume-local fallback, first success winning; concretely,
CreateDate `2021:06:01 12:00:00` with GPS present and the resolver
returning +09:00 resolves to `2021:06:01 21:00:00` with provenance
mentioning GPS and the rendered `+ 09:00` offset. -/
theorem claim_C1 :
    (∀ (resolver : Resolver) (data : MediaData) (v : String) (d : Datetime)
        (off : Option Timedelta) (lat lng : Int) (g : Timedelta),
      data.tagDateVideo = some v → parse_date v = .ok (some d, off) →
      data.gpsLatitude = some lat → data.gpsLongitude = some lng →
      resolver lat lng d = some g →
      get_date resolver data MEDIA_TYPE_VIDEO
        = .ok (some (addTd d g), some (TAG_DATE_VIDEO ++ (" in UTC " : String)
            ++ format_offset g ++ (" via GPS" : String)))) ∧
    (∀ (resolver : Resolver) (data : MediaData) (v : String) (d : Datetime)
        (off : Option Timedelta),
      data.tagDateVideo = some v → parse_date v = .ok (some d, off) →
      (data.gpsLatitude = none ∨ data.gpsLongitude = none ∨
        ∀ lat lng, data.gpsLatitude = some lat → data.gpsLongitude = some lng →
          resolver lat lng d = none) →
      get_date resolver data MEDIA_TYPE_VIDEO = videoFallback data d) ∧
    (∀ (data : MediaData) (d : Datetime),
      (data.tagDateFile = none ∨
        (∃ fv o, data.tagDateFile = some fv ∧ parse_date fv = .ok (none, o)) ∨
        (∃ fv df, data.tagDateFile = some fv ∧ parse_date fv = .ok (some df, none)) ∨
        (∃ fv df off, data.tagDateFile = some fv ∧
          parse_date fv = .ok (some df, some off) ∧
          ¬((df.toSecs - off - d.toSecs).natAbs ≤ 3))) →
      videoFallback data d
        = .ok (some d, some (TAG_DATE_VIDEO ++ (" assumed in local time" : String)))) ∧
    (get_date resolver9 gpsVideoRec MEDIA_TYPE_VIDEO = .ok (some nineJune, some provGPS) ∧
      nineJune = addTd noonJune 32400 ∧
      strContains provGPS sGPS = true ∧ strContains provGPS s0900 = true ∧
      format_offset 32400 = sPlus09) := by
  refine ⟨?_, ?_, ?_, rfl, rfl, rfl, rfl, rfl⟩
  · intro resolver data v d off lat lng g hv hp hla hlo hr
    exact get_date_gps_success resolver data v d off lat lng g hv hp hla hlo hr
  · intro resolver data v d off hv hp hgps
    exact get_date_gps_fallthrough resolver data v d off hv hp hgps
  · intro data d hno
    exact videoFallback_assumed data d hno

/-- Witness for C1 at the GPS scenario. -/
theorem claim_C1_witness :
    get_date resolver9 gpsVideoRec MEDIA_TYPE_VIDEO
      = .ok (some (addTd noonJune 32400), some (TAG_DATE_VIDEO ++ (" in UTC " : String)
          ++ format_offset 32400 ++ (" via GPS" : String))) :=
  claim_C1.1 resolver9 gpsVideoRec photoDateStr noonJune (some 0) 35 139 32400
    rfl rfl rfl rfl rfl

def fileVideoRec : MediaData :=
  { sourceFile := videoPath, tagDatePhoto := none,
    tagDateVideo := some photoDateStr, tagDateFile := some fileDateStr,
    gpsLatitude := none, gpsLongitude := none }

def fileDate : Datetime := ⟨2021, 6, 1, 21, 0, 3⟩

def provFile : String :=
  TAG_DATE_VIDEO ++ (" in UTC " : String) ++ format_offset 32400 ++ (" via File" : String)

def sFile : String := "File"

/-- Claim C2: when GPS resolution did not apply and the file-modify tag
parses to a time and an offset, the file offset is added to the base
instant (with the via-File provenance) exactly when the local file instant
is within 3 seconds of the base; concretely `21:00:03+09:00` against base
`12:00:00` resolves to `21:00:00`. -/
theorem claim_C2 :
    (∀ (resolver : Resolver) (data : MediaData) (v fv : String) (d df : Datetime)
        (off0 : Option Timedelta) (off : Timedelta),
      data.tagDateVideo = some v → parse_date v = .ok (some d, off0) →
      (data.gpsLatitude = none ∨ data.gpsLongitude = none ∨
        ∀ lat lng, data.gpsLatitude = some lat → data.gpsLongitude = some lng →
          resolver lat lng d = none) →
      data.tagDateFile = some fv → parse_date fv = .ok (some df, some off) →
      (get_date resolver data MEDIA_TYPE_VIDEO
          = .ok (some (addTd d off), some (TAG_DATE_VIDEO ++ (" in UTC " : String)
              ++ format_offset off ++ (" via File" : String)))
        ↔ (df.toSecs - off - d.toSecs).natAbs ≤ 3)) ∧
    (get_date envConst.resolver fileVideoRec MEDIA_TYPE_VIDEO
        = .ok (some nineJune, some provFile) ∧
      nineJune = addTd noonJune 32400 ∧
      strContains provFile sFile = true ∧ strContains provFile s0900 = true) := by
  refine ⟨?_, rfl, rfl, rfl, rfl⟩
  intro resolver data v fv d df off0 off hv hp hgps hf hpf
  rw [get_date_gps_fallthrough resolver data v d off0 hv hp hgps]
  constructor
  · intro heq
    by_cases hin : (df.toSecs - off - d.toSecs).natAbs ≤ 3
    · exact hin
    · rw [videoFallback_assumed data d
        (Or.inr (Or.inr (Or.inr ⟨fv, df, off, hf, hpf, hin⟩)))] at heq
      have hpair := Except.ok.inj heq
      have hsnd : (some (TAG_DATE_VIDEO ++ (" assumed in local time" : String))
            : Option String)
          = some (TAG_DATE_VIDEO ++ (" in UTC " : String) ++ format_offset off
              ++ (" via File" : String)) :=
        congrArg Prod.snd hpair
      exact absurd (Option.some.inj hsnd) (assumed_ne_viaFile off)
  · intro hin
    exact videoFallback_viaFile data d fv df off hf hpf hin

/-- Witness for C2 at the corroboration scenario. -/
theorem claim_C2_witness :
    get_date envConst.resolver fileVideoRec MEDIA_TYPE_VIDEO
      = .ok (some (addTd noonJune 32400), some (TAG_DATE_VIDEO ++ (" in UTC " : String)
          ++ format_offset 32400 ++ (" via File" : String))) :=
  (claim_C2.1 envConst.resolver fileVideoRec photoDateStr fileDateStr noonJune
    fileDate (some 0) 32400 rfl rfl (Or.inl rfl) rfl rfl).mpr (by decide)

def tzwRaise : TzWorld :=
  { certainTimezoneAt := fun _ _ => .error (), utcOffsetAt := fun _ _ => .error () }

def tzwNone : TzWorld :=
  { certainTimezoneAt := fun _ _ => .ok none, utcOffsetAt := fun _ _ => .ok 0 }

def tokyoName : String := "Asia/Tokyo"

def tzwLocRaise : TzWorld :=
  { certainTimezoneAt := fun _ _ => .ok (some tokyoName),
    utcOffsetAt := fun _ _ => .error () }

/-- Claim C8: the timezone offset resolver returns no offset — rather than
raising — on every failure of its collaborators (lookup raising, lookup
returning no certain zone, localization raising), and a `none` resolver
result makes the video date resolver fall through to the file heuristic
chain rather than failing. -/
theorem claim_C8 :
    (∀ (w : TzWorld) (lat lng : Int) (date : Datetime) (e : Unit),
      w.certainTimezoneAt lat lng = .error e → get_offset w lat lng date = none) ∧
    (∀ (w : TzWorld) (lat lng : Int) (date : Datetime),
      w.certainTimezoneAt lat lng = .ok none → get_offset w lat lng date = none) ∧
    (∀ (w : TzWorld) (lat lng : Int) (date : Datetime) (tz : String) (e : Unit),
      w.certainTimezoneAt lat lng = .ok (some tz) →
      w.utcOffsetAt tz date = .error e → get_offset w lat lng date = none) ∧
    (∀ (w : TzWorld) (data : MediaData) (v : String) (d : Datetime)
        (off : Option Timedelta) (lat lng : Int),
      data.tagDateVideo = some v → parse_date v = .ok (some d, off) →
      data.gpsLatitude = some lat → data.gpsLongitude = some lng →
      get_offset w lat lng d = none →
      get_date (get_offset w) data MEDIA_TYPE_VIDEO = videoFallback data d) := by
  refine ⟨?_, ?_, ?_, ?_⟩
  · intro w lat lng date e h
    simp [get_offset, h]
  · intro w lat lng date h
    simp [get_offset, h]
  · intro w lat lng date tz e h1 h2
    simp [get_offset, h1, h2]
  · intro w data v d off lat lng hv hp hla hlo hnone
    refine get_date_gps_fallthrough (get_offset w) data v d off hv hp ?_
    refine Or.inr (Or.inr ?_)
    intro lat' lng' hla' hlo'
    rw [hla'] at hla
    rw [hlo'] at hlo
    cases hla
    cases hlo
    exact hnone

/-- Witness for C8 at concrete failing collaborators. -/
theorem claim_C8_witness :
    get_offset tzwRaise 35 139 noonJune = none ∧
    get_offset tzwNone 35 139 noonJune = none ∧
    get_offset tzwLocRaise 35 139 noonJune = none ∧
    get_date (get_offset tzwLocRaise) gpsVideoRec MEDIA_TYPE_VIDEO
      = videoFallback gpsVideoRec noonJune :=
  ⟨claim_C8.1 tzwRaise 35 139 noonJune () rfl,
   claim_C8.2.1 tzwNone 35 139 noonJune rfl,
   claim_C8.2.2.1 tzwLocRaise 35 139 noonJune tokyoName () rfl rfl,
   claim_C8.2.2.2 tzwLocRaise gpsVideoRec photoDateStr noonJune (some 0) 35 139
     rfl rfl rfl rfl rfl⟩

end SortMedia
